import Mathlib

/-!
# Warpforge: structured errors, status classification, health check, markup validation

A shallow embedding of the parts of the repository that the specification's
claims speak about, followed by the theorems that settle them.

Conventions of the embedding:

* the strings that an `Error` or an `error` value holds are `GoString`s, which
  can hold bytes that are not valid UTF-8; every other Go `string` is a Lean
  `String`;
* a Go pointer `*T` is either `nil` or a reference to a value, compared by value;
* a Go slice that may be `nil` is an `Option (List _)`, `none` being the nil slice;
* a Go call that panics yields `none` in the `Option` monad;
* a call into a package outside the repository (the file system, the `fmt`
  verbs other than `%s`, `%w` and `%d`, `strings.ToLower`, ...) is a function
  argument.
-/

namespace Warpforge

/-! ## Go strings -/

/-- One step of decoding a Go string as UTF-8, the way `range` and
`utf8.DecodeRuneInString` do it: a code point, or a byte that is not part of a
valid encoding. -/
inductive GoRune where
  | rune (c : Char)
  | bad (b : UInt8)
  deriving DecidableEq

/-- A Go string, which is any sequence of bytes, by its decoding steps: a
`rune c` step stands for the bytes of the UTF-8 encoding of `c`, a `bad b`
step for the single byte `b` where decoding fails. The bytes of a string are
those of its steps in order; a string is represented by the steps decoding
yields, so `bad` steps are bytes that decoding does not combine into a code
point. Appending pieces that are separated by ASCII text, as the message
formats of this package do, appends their steps. -/
abbrev GoString := List GoRune

/-- The Go string whose bytes are the UTF-8 encoding of a text. -/
def GoString.ofString (s : String) : GoString := s.data.map GoRune.rune

instance : Coe String GoString := ⟨GoString.ofString⟩

/-- The text `encoding/json` writes for a Go string: every byte that is not
part of a valid encoding is replaced by U+FFFD. -/
def GoString.toText (s : GoString) : String :=
  String.mk (s.map fun r =>
    match r with
    | .rune c => c
    | .bad _ => Char.ofNat 0xFFFD)

/-- A Go string after a pass through `encoding/json`: encoded, then decoded. -/
def GoString.coerce (s : GoString) : GoString := GoString.ofString (GoString.toText s)

/-- A Go string that is valid UTF-8. -/
def GoString.valid (s : GoString) : Bool :=
  s.all fun r =>
    match r with
    | .rune _ => true
    | .bad _ => false

/-! ## `wfapi/error.go` -/

mutual
/-- The struct `wfapi.Error`: a code, a preformatted message, ordered key:value
details (a nil slice is `none`) and an optional cause. -/
inductive Error where
  | mk (Code : GoString) (Message : GoString) (Details : Option (List (GoString × GoString)))
      (Cause : ErrorPtr)
  deriving DecidableEq
/-- The pointer type `*wfapi.Error`. -/
inductive ErrorPtr where
  | nil
  | ref (e : Error)
  deriving DecidableEq
end

namespace Error

/-- Field `Code`. -/
def Code : Error → GoString
  | .mk c _ _ _ => c

/-- Field `Message`. -/
def Message : Error → GoString
  | .mk _ m _ _ => m

/-- Field `Details`. -/
def Details : Error → Option (List (GoString × GoString))
  | .mk _ _ d _ => d

/-- Field `Cause`. -/
def Cause : Error → ErrorPtr
  | .mk _ _ _ c => c

end Error

/-- The method `func (e *Error) Error() string`, which returns `e.Message`;
on a nil receiver the field access panics. -/
def ErrorPtr.Error : ErrorPtr → Option GoString
  | .nil => none
  | .ref e => some e.Message

/-- A value of the Go interface type `error`: the nil interface; an interface
holding a `*Error` (which may itself be a nil pointer); an interface holding a
value of any other type, known by the text its `Error()` method returns; or
such a value whose type also implements `fmt.Formatter`, known in addition by
what its `Format` method writes under the verbs `%s` and `%v`. -/
inductive GoError where
  | nil
  | structured (p : ErrorPtr)
  | other (text : GoString)
  | formatter (text : GoString) (formatS : GoString) (formatV : GoString)
  deriving DecidableEq

/-- Calling `err.Error()` on an interface value; `none` is a panic. -/
def GoError.Error : GoError → Option GoString
  | .nil => none
  | .structured p => p.Error
  | .other text => some text
  | .formatter text _ _ => some text

/-- Whether the dynamic type of an error value implements `fmt.Formatter`;
`*Error` does not. -/
def GoError.isFormatter : GoError → Bool
  | .formatter _ _ _ => true
  | _ => false

/-- What `fmt` prints for an `error` operand under the verb `%s`: what the
`Format` method writes when the value implements `fmt.Formatter`; else the
result of `Error()`; `<nil>` when that call panics on a nil pointer receiver;
the bad-verb marker for the nil interface. -/
def fmtS : GoError → GoString
  | .nil => "%!s(<nil>)"
  | .structured .nil => "<nil>"
  | .structured (.ref e) => e.Message
  | .other text => text
  | .formatter _ formatS _ => formatS

/-- What `fmt` prints for an `error` operand under the verb `%w`, which
formats like `%v`. -/
def fmtW : GoError → GoString
  | .nil => "%!w(<nil>)"
  | .structured .nil => "<nil>"
  | .structured (.ref e) => e.Message
  | .other text => text
  | .formatter _ _ formatV => formatV

/-- `wrapErr`: a `*Error` is returned as such, any other error is wrapped in
an `*Error` which has only the message field set. The nil interface falls in
the default case, where `err.Error()` panics. -/
def wrapErr (err : GoError) : Option ErrorPtr :=
  match err with
  | .structured c2 => some c2
  | .nil => none
  | .other text => some (.ref (.mk "" text none .nil))
  | .formatter text _ _ => some (.ref (.mk "" text none .nil))

/-- `ErrorUnknown`. -/
def ErrorUnknown (msgTmpl : GoString) (cause : GoError) : Option ErrorPtr := do
  let c ← wrapErr cause
  pure (.ref (.mk "warpforge-error-unknown" msgTmpl none c))

/-- `ErrorSearchingFilesystem`. -/
def ErrorSearchingFilesystem (searchingFor : GoString) (cause : GoError) :
    Option ErrorPtr := do
  let message : GoString :=
    "error while searching filesystem for " ++ searchingFor ++ ": " ++ fmtS cause
  let c ← wrapErr cause
  pure (.ref (.mk "warpforge-error-searching-filesystem" message
    (some [("searchingFor", searchingFor)]) c))

/-- `ErrorWorkspace`. The verb `%q` is `strconv.Quote`, passed as `quote`. -/
def ErrorWorkspace (quote : GoString → GoString) (wsPath : GoString) (cause : GoError) :
    Option ErrorPtr := do
  let message : GoString :=
    "error handling workspace at " ++ quote wsPath ++ ": " ++ fmtS cause
  let c ← wrapErr cause
  pure (.ref (.mk "warpforge-error-workspace" message (some [("workspacePath", wsPath)]) c))

/-- `ErrorExecutorFailed`. -/
def ErrorExecutorFailed (executorEngineName : GoString) (cause : GoError) :
    Option ErrorPtr := do
  let message : GoString := "executor engine failed: the " ++ executorEngineName ++
    " engine reported error: " ++ fmtS cause
  let c ← wrapErr cause
  pure (.ref (.mk "warpforge-error-executor-failed" message
    (some [("engineName", executorEngineName)]) c))

/-! ## The JSON form of `Error` (`encoding/json`, as used by `TerminalError`)

`encoding/json` is modelled at the level of JSON values: which value a Go
value is encoded as, and which Go value a JSON value is decoded into. A string
of a JSON document is a text; the encoder turns a Go string into a text by
`GoString.toText`. -/

/-- A JSON value. A number is kept as its literal. -/
inductive JSON where
  | null
  | bool (b : Bool)
  | number (literal : String)
  | str (s : String)
  | arr (elems : List JSON)
  | obj (members : List (String × JSON))

/-- The encoding of a `[][2]string`: a nil slice is `null`, any other slice an
array of two-element arrays of strings. -/
def marshalDetails : Option (List (GoString × GoString)) → JSON
  | none => .null
  | some pairs =>
    .arr (pairs.map fun kv => .arr [.str (GoString.toText kv.1), .str (GoString.toText kv.2)])

mutual
/-- The encoding of an `Error` struct: an object with one member per exported
field, in declaration order, under the field's name (the struct has no tags). -/
def Error.marshal : Error → JSON
  | .mk code message details cause =>
    .obj [("Code", .str (GoString.toText code)), ("Message", .str (GoString.toText message)),
      ("Details", marshalDetails details), ("Cause", ErrorPtr.marshal cause)]
/-- The encoding of a `*Error`: `null` for nil, else the encoding of the struct. -/
def ErrorPtr.marshal : ErrorPtr → JSON
  | .nil => .null
  | .ref e => Error.marshal e
end

/-- `TerminalError`: the document written to stdout, the anonymous struct
`struct { Error *Error "json:\"error\"" }`, and the exit code the process
halts with. -/
def TerminalError (err : ErrorPtr) (exitCode : Int) : JSON × Int :=
  (.obj [("error", err.marshal)], exitCode)

/-- Decoding into a Go `string`: `null` leaves it as it is, a JSON string
sets it, anything else is an `UnmarshalTypeError`. -/
def unmarshalString (dst : GoString) : JSON → Option GoString
  | .null => some dst
  | .str s => some (GoString.ofString s)
  | _ => none

/-- Decoding into a `[2]string`: elements past the second are skipped, missing
ones are zeroed. -/
def unmarshalPair (dst : GoString × GoString) : JSON → Option (GoString × GoString)
  | .null => some dst
  | .arr [] => some ([], [])
  | .arr [a] => do
    let x ← unmarshalString dst.1 a
    pure (x, [])
  | .arr (a :: b :: _) => do
    let x ← unmarshalString dst.1 a
    let y ← unmarshalString dst.2 b
    pure (x, y)
  | _ => none

/-- Decoding the elements of a JSON array into the elements of a slice of
`[2]string`, element by element; the slice ends up as long as the array. -/
def unmarshalPairs :
    List (GoString × GoString) → List JSON → Option (List (GoString × GoString))
  | _, [] => some []
  | dst, j :: js => do
    let kv ← unmarshalPair (dst.headD ([], [])) j
    let rest ← unmarshalPairs dst.tail js
    pure (kv :: rest)

/-- Decoding into a `[][2]string`: `null` sets the slice to nil, an array
fills it (an empty array gives an empty, non-nil slice). -/
def unmarshalDetails (dst : Option (List (GoString × GoString))) :
    JSON → Option (Option (List (GoString × GoString)))
  | .null => some none
  | .arr js => (unmarshalPairs (dst.getD []) js).map some
  | _ => none

/-- The exported fields of the struct `Error`. -/
inductive Field where
  | Code
  | Message
  | Details
  | Cause
  deriving DecidableEq

/-- The JSON member name of a field. -/
def Field.name : Field → String
  | .Code => "Code"
  | .Message => "Message"
  | .Details => "Details"
  | .Cause => "Cause"

/-- The fields of `Error` in declaration order. -/
def errorFields : List Field := [.Code, .Message, .Details, .Cause]

/-- The field a member key decodes into: the field of exactly that name, else
the first field whose name is equal to the key under the decoder's case
folding `foldName`; a key that matches no field is ignored. -/
def findField (foldName : String → String) (key : String) : Option Field :=
  match errorFields.find? fun f => f.name == key with
  | some f => some f
  | none => errorFields.find? fun f => foldName f.name == foldName key

/-- The zero value of the struct `Error`. -/
def Error.zero : Error := .mk [] [] none .nil

/-- The struct a decoder fills behind a `*Error`: the one pointed to, or a
freshly allocated zero value when the pointer is nil. -/
def ErrorPtr.pointee : ErrorPtr → Warpforge.Error
  | .nil => Warpforge.Error.zero
  | .ref e => e

mutual
/-- Decoding into a `*Error`: `null` sets the pointer to nil; an object is
decoded into the struct behind the pointer, allocated first when the pointer
is nil; anything else is an `UnmarshalTypeError`. -/
def unmarshalErrorPtr (foldName : String → String) (dst : ErrorPtr) : JSON → Option ErrorPtr
  | .null => some .nil
  | .obj members => do
    let e ← unmarshalMembers foldName dst.pointee members
    pure (.ref e)
  | _ => none
/-- Decoding the members of an object into the fields of an `Error`, in the
order of the document. -/
def unmarshalMembers (foldName : String → String) (dst : Error) :
    List (String × JSON) → Option Error
  | [] => some dst
  | (key, v) :: rest =>
    match findField foldName key with
    | some .Code => do
      let code ← unmarshalString dst.Code v
      unmarshalMembers foldName (.mk code dst.Message dst.Details dst.Cause) rest
    | some .Message => do
      let message ← unmarshalString dst.Message v
      unmarshalMembers foldName (.mk dst.Code message dst.Details dst.Cause) rest
    | some .Details => do
      let details ← unmarshalDetails dst.Details v
      unmarshalMembers foldName (.mk dst.Code dst.Message details dst.Cause) rest
    | some .Cause => do
      let cause ← unmarshalErrorPtr foldName dst.Cause v
      unmarshalMembers foldName (.mk dst.Code dst.Message dst.Details cause) rest
    | none => unmarshalMembers foldName dst rest
end

/-- Decoding into an `Error` struct: `null` leaves it as it is, an object
is decoded member by member, anything else is an `UnmarshalTypeError`. -/
def unmarshalError (foldName : String → String) (dst : Error) : JSON → Option Error
  | .null => some dst
  | .obj members => unmarshalMembers foldName dst members
  | _ => none

/-- Decoding the document of `TerminalError` into a zero value of its struct
type: the member `error` (or a key that case-folds to it) sets the field. -/
def unmarshalTerminal (foldName : String → String) : JSON → Option ErrorPtr
  | .obj members => members.foldlM (fun dst kv =>
      if kv.1 == "error" ∨ foldName kv.1 == foldName "error" then
        unmarshalErrorPtr foldName dst kv.2
      else some dst) .nil
  | .null => some .nil
  | _ => none

/-- The detail pairs of an `Error` after a pass through `encoding/json`. -/
def coerceDetails : Option (List (GoString × GoString)) → Option (List (GoString × GoString))
  | none => none
  | some pairs => some (pairs.map fun kv => (GoString.coerce kv.1, GoString.coerce kv.2))

mutual
/-- An `Error` with every string at every level of the cause chain replaced by
what a pass through `encoding/json` makes of it. -/
def Error.coerced : Error → Error
  | .mk code message details cause =>
    .mk (GoString.coerce code) (GoString.coerce message) (coerceDetails details)
      (ErrorPtr.coerced cause)
/-- A `*Error` with every string replaced the same way. -/
def ErrorPtr.coerced : ErrorPtr → ErrorPtr
  | .nil => .nil
  | .ref e => .ref (Error.coerced e)
end

/-- The detail pairs are all valid UTF-8. -/
def validDetails : Option (List (GoString × GoString)) → Bool
  | none => true
  | some pairs => pairs.all fun kv => GoString.valid kv.1 && GoString.valid kv.2

mutual
/-- Every string of the `Error`, at every level of the cause chain, is valid
UTF-8. -/
def Error.valid : Error → Bool
  | .mk code message details cause =>
    GoString.valid code && GoString.valid message && validDetails details &&
      ErrorPtr.valid cause
/-- Every string behind the pointer is valid UTF-8. -/
def ErrorPtr.valid : ErrorPtr → Bool
  | .nil => true
  | .ref e => Error.valid e
end

/-- The Go string `"bad\xffbyte"`: the byte `0xff` is part of no valid UTF-8
encoding. -/
def badText : GoString := "bad" ++ [GoRune.bad 0xff] ++ "byte"

/-! ## `wfapi/wares.go` -/

/-- The struct `wfapi.WareID`. -/
structure WareID where
  PackType : String
  Hash : String
  deriving DecidableEq

/-! ## `app/status/status_cli.go`

The declarations of `wfapi.Plot`, `wfapi.PlotInput`, `wfapi.Module` and of the
workspace set are not among the sources; they are modelled by the fields and
methods `cmdStatus` reads. -/

/-- Modelled from the spec: a catalog reference is a module name, a release
label and an item name (the declaration of `wfapi.CatalogRef` is missing). -/
structure CatalogRef where
  ModuleName : String
  ReleaseName : String
  ItemName : String
  deriving DecidableEq

/-- Modelled from the spec: a mount binds a local path into the sandbox (the
declaration of `wfapi.Mount` is missing). -/
structure Mount where
  HostPath : String
  deriving DecidableEq

/-- Modelled from the spec: an ingest names local content that is hashed at
execution time (the declaration of `wfapi.Ingest` is missing). -/
structure Ingest where
  HostPath : String
  deriving DecidableEq

/-- What `input.Basis()` points to, as far as `cmdStatus` reads it: three
pointer fields, each of which may be nil. -/
structure PlotInputSimple where
  Mount : Option Mount
  Ingest : Option Ingest
  CatalogRef : Option CatalogRef
  deriving DecidableEq

/-- A plot input; `cmdStatus` reads it through `Basis()` and through the field
`PlotInputSimple`, which are the same struct for a simple input. -/
structure PlotInput where
  PlotInputSimple : PlotInputSimple
  deriving DecidableEq

/-- The method `Basis()`. -/
def PlotInput.Basis (input : PlotInput) : Warpforge.PlotInputSimple := input.PlotInputSimple

/-- The ordered map `plot.Inputs`: its key list and the entries of its Go map
`Values`, listed in the order the `range` loop visits them. -/
structure PlotInputs where
  Keys : List String
  Values : List (String × PlotInput)

/-- An ordered map of which only the key list is read (`plot.Steps`,
`plot.Outputs`). -/
structure KeyedMap where
  Keys : List String

/-- The struct `wfapi.Plot`. -/
structure Plot where
  Inputs : PlotInputs
  Steps : KeyedMap
  Outputs : KeyedMap

/-- The inputs of a plot in the order `range plot.Inputs.Values` visits them. -/
def Plot.inputList (plot : Plot) : List PlotInput := plot.Inputs.Values.map Prod.snd

/-- The struct `wfapi.Module`, of which the name is read. -/
structure Module where
  Name : String

/-- A workspace of the set: the result of `Path()` (the file system as `%s`
prints it, and the sub path) and its two flags. -/
structure Workspace where
  Path : String × String
  IsRootWorkspace : Bool
  IsHomeWorkspace : Bool

/-- The workspace set returned by `util.OpenWorkspaceSet`: its workspaces and
its method `GetCatalogWare`, which returns a `*WareID` (nil when no workspace
has the reference) and an error. -/
structure WorkspaceSet where
  workspaces : List Workspace
  GetCatalogWare : CatalogRef → Option WareID × GoError

/-- Everything `cmdStatus` obtains from outside: the flag, the version
constant, the file names of package `dab`, and the results of the calls into
the operating system and into other packages. -/
structure StatusEnv where
  verbose : Bool
  VERSION : String
  Args0 : String
  MagicFilename_Module : String
  MagicFilename_Plot : String
  BinPath : String × GoError
  Getwd : String × GoError
  Join : String → String → String
  Stat : String → GoError
  IsNotExist : GoError → Bool
  RunRuncVersion : String → String × GoError
  ModuleFromFile : String → Option Module × GoError
  PlotFromFile : String → Plot × GoError
  OpenWorkspaceSet : WorkspaceSet × GoError
  OpenWorkspaceSetAgain : WorkspaceSet × GoError

/-- One call of `Fprintf` on `c.App.Writer`, with its operands. -/
inductive Out where
  | version (v : String)
  | pluginInfoHeader
  | binPath (p : String)
  | rioNotFound (rioPath : String)
  | foundRio
  | runcNotFound (runcPath : String)
  | foundRunc
  | runcVersion (text : String)
  | pluginsWarning
  | moduleHeader (name : String)
  | noModule
  | plotHas (inputs steps outputs : Nat)
  | missingCatalogItem (ref : CatalogRef)
  | catalogInputs (count resolved total : Nat)
  | unresolvedWarning (n : Nat)
  | ingestWarning (n : Nat)
  | mountWarning (n : Nat)
  | noPlotFile
  | workspaceHeader
  | pwdOpen (cwd : String)
  | pwdModule
  | pwdWorkspace
  | pwdRootWorkspace
  | pwdGitRepo
  | closeParen
  | workspaceOpen (path : String)
  | label (l : String)
  | labelSeparator
  | evaluateHint (arg0 : String)
  deriving DecidableEq

/-- The local variables of the classification loop, and the lines it wrote. -/
structure LoopState where
  catalogRefCount : Nat
  resolvedCatalogRefCount : Nat
  ingestCount : Nat
  mountCount : Nat
  written : List Out

/-- The loop variables before the first iteration. -/
def LoopState.init : LoopState := ⟨0, 0, 0, 0, []⟩

/-- One iteration of the loop over `plot.Inputs.Values`. The error is non-nil
when the iteration returns from `cmdStatus`. -/
def classifyInput (wss : WorkspaceSet) (st : LoopState) (input : PlotInput) :
    LoopState × GoError :=
  if input.Basis.Mount ≠ none then
    ({ st with mountCount := st.mountCount + 1 }, .nil)
  else if input.Basis.Ingest ≠ none then
    ({ st with ingestCount := st.ingestCount + 1 }, .nil)
  else
    match input.PlotInputSimple.CatalogRef with
    | some ref =>
      let st1 := { st with catalogRefCount := st.catalogRefCount + 1 }
      let (ware, err) := wss.GetCatalogWare ref
      if err ≠ .nil then
        (st1, .other ("failed to lookup catalog ref: " ++ fmtS err))
      else if ware = none then
        ({ st1 with written := st1.written ++ [.missingCatalogItem ref] }, .nil)
      else
        ({ st1 with resolvedCatalogRefCount := st1.resolvedCatalogRefCount + 1 }, .nil)
    | none => (st, .nil)

/-- The loop `for _, input := range plot.Inputs.Values`. -/
def classifyInputs (wss : WorkspaceSet) : List PlotInput → LoopState → LoopState × GoError
  | [], st => (st, .nil)
  | input :: rest, st =>
    let (st1, err) := classifyInput wss st input
    if err ≠ .nil then (st1, err) else classifyInputs wss rest st1

/-- The three summary lines after the loop that are conditional. -/
def plotWarnings (st : LoopState) : List Out :=
  (if st.resolvedCatalogRefCount < st.catalogRefCount then
    [Out.unresolvedWarning (st.catalogRefCount - st.resolvedCatalogRefCount)] else []) ++
  (if st.ingestCount > 0 then [Out.ingestWarning st.ingestCount] else []) ++
  (if st.mountCount > 0 then [Out.mountWarning st.mountCount] else [])

/-- The block `if hasPlot { ... }`: the lines it writes and the error it
returns from `cmdStatus` with (nil when control leaves the block normally). -/
def plotReport (env : StatusEnv) (plot : Plot) : List Out × GoError :=
  let w := [Out.plotHas plot.Inputs.Keys.length plot.Steps.Keys.length plot.Outputs.Keys.length]
  let (wss, err) := env.OpenWorkspaceSet
  if err ≠ .nil then
    (w, .other ("failed to open workspace: " ++ fmtS err))
  else
    let (st, err) := classifyInputs wss plot.inputList LoopState.init
    if err ≠ .nil then
      (w ++ st.written, err)
    else
      (w ++ st.written ++
        [Out.catalogInputs st.catalogRefCount st.resolvedCatalogRefCount st.catalogRefCount] ++
        plotWarnings st, .nil)

/-- `isGitRepo`. -/
def isGitRepo (env : StatusEnv) (path : String) : Bool :=
  !env.IsNotExist (env.Stat (env.Join path ".git"))

/-- The loop printing the labels of a workspace, separated by commas. -/
def labelsOut : List String → List Out
  | [] => []
  | [l] => [.label l]
  | l :: rest => .label l :: .labelSeparator :: labelsOut rest

/-- The body of the loop over the workspace set. -/
def workspaceLine (env : StatusEnv) (cwd : String) (ws : Workspace) : List Out :=
  let path := ws.Path.1 ++ ws.Path.2
  if path = cwd then []
  else
    let isRoot := ws.IsRootWorkspace
    let isHome := ws.IsHomeWorkspace
    let labels := (if isRoot then ["root workspace"] else []) ++
      (if isHome then ["home workspace"] else []) ++
      (if !isRoot && !isHome then ["workspace"] else []) ++
      (if isGitRepo env path then ["git repo"] else [])
    [Out.workspaceOpen path] ++ labelsOut labels ++ [Out.closeParen]

/-- The part of `cmdStatus` from `// display workspace info` on. The flag
`evaluable` is `module != nil && hasPlot`. -/
def workspaceReport (env : StatusEnv) (cwd : String) (hasModule evaluable : Bool) :
    List Out × GoError :=
  let w := [Out.workspaceHeader]
  let (wss, err) := env.OpenWorkspaceSetAgain
  if err ≠ .nil then
    (w, .other ("failed to open workspace set: " ++ fmtS err))
  else
    let w := w ++ [Out.pwdOpen cwd] ++
      (if hasModule then [Out.pwdModule] else []) ++
      (if !env.IsNotExist (env.Stat (env.Join cwd ".warpforge")) then [Out.pwdWorkspace]
        else []) ++
      (if !env.IsNotExist (env.Stat (env.Join cwd ".warpforge/root")) then
        [Out.pwdRootWorkspace] else []) ++
      (if !env.IsNotExist (env.Stat (env.Join cwd ".git")) then [Out.pwdGitRepo] else []) ++
      [Out.closeParen] ++
      (wss.workspaces.map (workspaceLine env cwd)).flatten ++
      (if evaluable then [Out.evaluateHint env.Args0] else [])
    (w, .nil)

/-- The part of `cmdStatus` from `// display module and plot info` on, `plot`
being `some` exactly when `hasPlot` is set. -/
def moduleReport (env : StatusEnv) (cwd : String) (module : Option Module)
    (plot : Option Plot) : List Out × GoError :=
  match plot with
  | some plot =>
    let (w, err) := plotReport env plot
    if err ≠ .nil then (w, err)
    else
      let (w2, err) := workspaceReport env cwd module.isSome module.isSome
      (w ++ w2, err)
  | none =>
    let w := if module.isSome then [Out.noPlotFile] else []
    let (w2, err) := workspaceReport env cwd module.isSome false
    (w ++ w2, err)

/-- The part of `cmdStatus` from `// check if pwd is a module` on. -/
def cmdStatusFromModule (env : StatusEnv) (cwd : String) : List Out × GoError :=
  let (module, err) :=
    if env.Stat (env.Join cwd env.MagicFilename_Module) = .nil then
      env.ModuleFromFile (env.Join cwd env.MagicFilename_Module)
    else (none, .nil)
  if err ≠ .nil then
    ([], .other ("failed to open module file: " ++ fmtS err))
  else
    let w := [match module with
      | some m => Out.moduleHeader m.Name
      | none => Out.noModule]
    if module.isSome ∧ env.Stat (env.Join cwd env.MagicFilename_Plot) = .nil then
      let (plot, err) := env.PlotFromFile (env.Join cwd env.MagicFilename_Plot)
      if err ≠ .nil then
        (w, .other ("failed to open plot file: " ++ fmtS err))
      else
        let (w2, err) := moduleReport env cwd module (some plot)
        (w ++ w2, err)
    else
      let (w2, err) := moduleReport env cwd module none
      (w ++ w2, err)

/-- `cmdStatus`: the lines written to `c.App.Writer` and the returned error. -/
def cmdStatus (env : StatusEnv) : List Out × GoError :=
  let w := (if env.verbose then [Out.version env.VERSION] else []) ++
    (if env.verbose then [Out.pluginInfoHeader] else [])
  let (binPath, err) := env.BinPath
  if err ≠ .nil then (w, err)
  else
    let (cwd, err) := env.Getwd
    if err ≠ .nil then (w, err)
    else
      let w := w ++ (if env.verbose then [Out.binPath binPath] else [])
      let rioPath := env.Join binPath "rio"
      let rioMissing := env.IsNotExist (env.Stat rioPath)
      let w := w ++ (if rioMissing then [Out.rioNotFound rioPath]
        else if env.verbose then [Out.foundRio] else [])
      let runcPath := env.Join binPath "runc"
      if env.IsNotExist (env.Stat runcPath) then
        let w := w ++ [Out.runcNotFound runcPath] ++ [Out.pluginsWarning]
        let (w2, err) := cmdStatusFromModule env cwd
        (w ++ w2, err)
      else
        let (runcVersionOut, err) := env.RunRuncVersion (env.Join binPath "runc")
        if err ≠ .nil then
          (w, .other ("failed to get runc version information: " ++ fmtS err))
        else
          let w := w ++ (if env.verbose then [Out.foundRunc, Out.runcVersion runcVersionOut]
            else []) ++ (if rioMissing then [Out.pluginsWarning] else [])
          let (w2, err) := cmdStatusFromModule env cwd
          (w ++ w2, err)

/-- The sum of the three classification counters. -/
def LoopState.classified (st : LoopState) : Nat :=
  st.catalogRefCount + st.mountCount + st.ingestCount

/-- An input none of whose three basis pointers is set. -/
def PlotInput.unclassified (input : PlotInput) : Bool :=
  input.Basis.Mount = none ∧ input.Basis.Ingest = none ∧ input.Basis.CatalogRef = none

/-- The data-model invariant `Exactly one variant is populated per input`. -/
def PlotInput.exactlyOne (input : PlotInput) : Bool :=
  (input.Basis.Mount ≠ none ∧ input.Basis.Ingest = none ∧ input.Basis.CatalogRef = none) ∨
  (input.Basis.Mount = none ∧ input.Basis.Ingest ≠ none ∧ input.Basis.CatalogRef = none) ∨
  (input.Basis.Mount = none ∧ input.Basis.Ingest = none ∧ input.Basis.CatalogRef ≠ none)

/-- An input the loop classifies as a mount. -/
def PlotInput.classifiedMount (input : PlotInput) : Bool :=
  input.Basis.Mount ≠ none

/-- An input the loop classifies as an ingest. -/
def PlotInput.classifiedIngest (input : PlotInput) : Bool :=
  input.Basis.Mount = none ∧ input.Basis.Ingest ≠ none

/-- The reference of an input that the loop classifies as a catalog input
(neither mount nor ingest is set, the catalog reference is). -/
def PlotInput.classifiedCatalogRef (input : PlotInput) : Option CatalogRef :=
  if input.Basis.Mount = none ∧ input.Basis.Ingest = none then input.Basis.CatalogRef else none

/-- An input the loop classifies as a catalog input. -/
def PlotInput.classifiedCatalog (input : PlotInput) : Bool :=
  input.classifiedCatalogRef.isSome

/-- A catalog input whose lookup yields no ware. -/
def WorkspaceSet.unresolved (wss : WorkspaceSet) (input : PlotInput) : Bool :=
  match input.classifiedCatalogRef with
  | some ref => (wss.GetCatalogWare ref).1 = none
  | none => false

/-- The environment with the lookup function of its workspace set replaced. -/
def StatusEnv.withLookup (env : StatusEnv) (lookup : CatalogRef → Option WareID × GoError) :
    StatusEnv :=
  { env with OpenWorkspaceSet :=
      ({ env.OpenWorkspaceSet.1 with GetCatalogWare := lookup }, env.OpenWorkspaceSet.2) }

/-- A concrete environment: plugins present, a module with a plot in the
working directory `/w`, and one workspace whose catalog has no entries. -/
def demoEnv (plot : Plot) : StatusEnv where
  verbose := false
  VERSION := "v0"
  Args0 := "warpforge"
  MagicFilename_Module := "module.wf"
  MagicFilename_Plot := "plot.wf"
  BinPath := ("/bin", .nil)
  Getwd := ("/w", .nil)
  Join := fun a b => a ++ "/" ++ b
  Stat := fun p => if p = "/w/.git" then .other "stat: no such file" else .nil
  IsNotExist := fun e => e ≠ .nil
  RunRuncVersion := fun _ => ("runc version 1", .nil)
  ModuleFromFile := fun _ => (some ⟨"demo"⟩, .nil)
  PlotFromFile := fun _ => (plot, .nil)
  OpenWorkspaceSet := (⟨[⟨("/", "w"), true, false⟩], fun _ => (none, .nil)⟩, .nil)
  OpenWorkspaceSetAgain := (⟨[⟨("/", "w"), true, false⟩], fun _ => (none, .nil)⟩, .nil)

/-- A plot with a mount, an ingest, two catalog references and an input with
none of the three. -/
def demoPlot : Plot :=
  ⟨⟨["a", "b", "c", "d", "e"],
    [("a", ⟨⟨some ⟨"/m"⟩, none, none⟩⟩), ("b", ⟨⟨none, some ⟨"/i"⟩, none⟩⟩),
     ("c", ⟨⟨none, none, some ⟨"m", "r", "i"⟩⟩⟩), ("d", ⟨⟨none, none, none⟩⟩),
     ("e", ⟨⟨none, none, some ⟨"m", "r", "j"⟩⟩⟩)]⟩, ⟨["s"]⟩, ⟨["o"]⟩⟩

/-! ## `pkg/dab/workspace.go`

The helpers `wfapi.ErrorIo` and `wfapi.ErrorSerialization` are not among the
sources; `MirroringConfigFromFile` takes them as arguments, together with the
file system and `ipld.Unmarshal`. -/

/-- Modelled from the spec: a mirroring configuration is a remote endpoint and
the catalog scope it applies to (the declaration of `wfapi.MirroringConfig` is
missing). -/
structure MirroringConfig where
  Endpoint : String
  Scope : List String
  deriving DecidableEq

/-- The zero value `wfapi.MirroringConfig{}`. -/
def MirroringConfig.zero : MirroringConfig := ⟨"", []⟩

/-- The struct `wfapi.MirroringConfigCapsule`, holding a pointer. -/
structure MirroringConfigCapsule where
  MirroringConfig : Option MirroringConfig

/-- The statement `if strings.HasPrefix(filename, "/") { filename = filename[1:] }`. -/
def trimLeadingSlash (filename : String) : String :=
  match filename.data with
  | '/' :: rest => String.mk rest
  | _ => filename

/-- `MirroringConfigFromFile`. The arguments `errorIo` and
`errorSerialization` are `wfapi.ErrorIo` and `wfapi.ErrorSerialization`, `fsys`
is `fs.ReadFile(fsys, ·)` and `Unmarshal` is
`ipld.Unmarshal(·, json.Decode, &capsule, ...)`, giving the capsule as filled
and the error. -/
def MirroringConfigFromFile (errorIo : String → String → GoError → GoError)
    (errorSerialization : String → GoError → GoError)
    (Unmarshal : String → MirroringConfigCapsule × GoError)
    (fsys : String → String × GoError) (filename : String) : MirroringConfig × GoError :=
  let situation := "loading a mirroring config"
  let filename := trimLeadingSlash filename
  let (f, err) := fsys filename
  if err ≠ .nil then
    (MirroringConfig.zero, errorIo situation filename err)
  else
    let (mirroringConfigCapsule, err) := Unmarshal f
    if err ≠ .nil then
      (MirroringConfig.zero, errorSerialization situation err)
    else
      match mirroringConfigCapsule.MirroringConfig with
      | none => (MirroringConfig.zero, errorSerialization situation err)
      | some config => (config, .nil)

/-- Modelled from the spec: `wfapi.ErrorIo`, which is not among the sources, as
a construction helper of the kind of `ErrorWorkspace`: a fixed code, a composed
message, the context and the path as detail pairs, the cause wrapped (no cause
for a nil one). -/
def ErrorIo (context path : String) (cause : GoError) : GoError :=
  .structured (.ref (.mk "warpforge-error-io"
    ("io error during " ++ context ++ ": " ++ path ++ ": " ++ fmtS cause)
    (some [("context", context), ("path", path)]) ((wrapErr cause).getD .nil)))

/-- Modelled from the spec: `wfapi.ErrorSerialization`, which is not among the
sources, as a construction helper that receives the context and the cause: a
fixed code, a composed message, the context as detail pair, the cause wrapped
(no cause for a nil one). -/
def ErrorSerialization (context : String) (cause : GoError) : GoError :=
  .structured (.ref (.mk "warpforge-error-serialization"
    ("serialization error during " ++ context ++ ": " ++ fmtS cause)
    (some [("context", context)]) ((wrapErr cause).getD .nil)))

/-- The detail pairs of an error value: those of the `Error` it holds, none
for any other value. -/
def GoError.details : GoError → List (GoString × GoString)
  | .structured (.ref e) => e.Details.getD []
  | _ => []

/-- Whether the detail pairs of an error hold `path`: as a key, as a value, or
inside one. -/
def GoError.detailsHold (err : GoError) (path : String) : Bool :=
  err.details.any fun kv =>
    decide (GoString.ofString path <:+: kv.1) || decide (GoString.ofString path <:+: kv.2)

/-- A file name longer than every key and value of the given detail pairs. -/
def longName (details : List (GoString × GoString)) : String :=
  String.mk (List.replicate ((details.map fun kv => kv.1.length + kv.2.length).sum + 1) 'a')

/-! ## Errors of the package `serum` -/

/-- The message a `serum` constructor is given: none, a formatted text
(`serum.Errorf`), or a template over the details (`serum.WithMessageTemplate`). -/
inductive SerumMessage where
  | absent
  | text (s : GoString)
  | template (t : String)
  deriving DecidableEq

/-- An error value built by `serum.Error` or `serum.Errorf`: its code, message,
detail pairs and cause. `serum.Code` returns the field `Code`. -/
structure SerumError where
  Code : String
  Message : SerumMessage
  Details : List (String × String)
  Cause : GoError
  deriving DecidableEq

/-! ## `cmd/warpforge/internal/healthcheck/execute.go` -/

/-- The constant `CodeRunOkay`; its declaration is not among the sources, the
value is the first code the doc comment of `Run` lists. -/
def CodeRunOkay : String := "warpforge-error-healthcheck-run-okay"

/-- The constant `CodeRunFailure`; its declaration is not among the sources,
the value is the second code the doc comment of `Run` lists. -/
def CodeRunFailure : String := "warpforge-error-healthcheck-run-fail"

/-- The struct `ExecutionInfo`. -/
structure ExecutionInfo where
  BasePath : String
  TmpDirPrefix : String
  RootWorkspaceDir : String
  LocalWorkspaceDir : String

/-- The struct `wfapi.PlotCapsule`, holding a pointer. -/
structure PlotCapsule where
  Plot : Option Plot

/-- The struct `wfapi.FormulaExecConfig`, as far as `Run` sets it. -/
structure FormulaExecConfig where
  DisableMemoization : Bool
  deriving DecidableEq

/-- The struct `wfapi.PlotExecConfig`, as far as `Run` sets it. -/
structure PlotExecConfig where
  Recursive : Bool
  FormulaExecConfig : FormulaExecConfig
  deriving DecidableEq

/-- The struct `wfapi.PlotResults`: the key list and the entries of the Go map
`Values`, one per key of the map. -/
structure PlotResults where
  Keys : List String
  Values : List (String × WareID)
  deriving DecidableEq

/-- `reflect.DeepEqual` on two Go maps given by their entries: as many
entries, and every key of the first bound to the same value in the second. -/
def mapDeepEqual (a b : List (String × WareID)) : Bool :=
  a.length == b.length && a.all fun kv => b.lookup kv.1 == some kv.2

/-- `reflect.DeepEqual` on two `PlotResults`: the key slices equal element by
element, the maps deeply equal. -/
def PlotResults.deepEqual (a b : PlotResults) : Bool :=
  a.Keys == b.Keys && mapDeepEqual a.Values b.Values

/-- The expected result `invariant` of `Run`. -/
def invariant : PlotResults :=
  { Keys := ["output"]
    Values := [("output",
      { PackType := "tar"
        Hash := "6U2WhgnXRCLsNjZLyvLzG6Eer5MH4MpguDeimPrEafHytjmXjbvxjm1STCuqHV5AQA" })] }

/-- Everything `Run` obtains from outside: the two default constants of the
package, the calls into the operating system and into the packages
`workspace`, `catalog`, `ipld` and `plotexec`, and the two `fmt` renderings
that are not `%s` of a string or error. -/
structure RunEnv where
  DefaultBasePath : String
  DefaultRootWorkspacePrefix : String
  MkdirTemp : String → String → String × GoError
  PlaceWorkspaceRoot : String → GoError
  Mkdir : String → GoError
  PlaceWorkspace : String → GoError
  Join : String → String → String
  FindWorkspaceStack : String → WorkspaceSet × GoError
  UnmarshalDefaultPlot : PlotCapsule × GoError
  CatalogBasePath : WorkspaceSet → String
  InstallDefaultRemoteCatalog : String → GoError
  Tidy : WorkspaceSet → Plot → GoError
  Exec : WorkspaceSet → PlotCapsule → PlotExecConfig → PlotResults × GoError
  quote : String → String
  showResults : PlotResults → String

/-- `serum.Errorf(CodeRunFailure, ...)` with the formatted message and the
operand of `%w` as cause. -/
def runFailure (message : GoString) (cause : GoError) : SerumError :=
  { Code := CodeRunFailure, Message := .text message, Details := [], Cause := cause }

/-- `ExecutionInfo.Run`: the error it returns. The slice expression
`localWorkspaceDir[1:]` panics on an empty string (`none`); it drops the first
byte, which is the first character of a path. The assignments to `e.BasePath`
and `e.TmpDirPrefix` are kept as local values. -/
def Run (env : RunEnv) (e : ExecutionInfo) : Option SerumError :=
  let basePath := if e.BasePath = "" then env.DefaultBasePath else e.BasePath
  let tmpDirPrefix :=
    if e.TmpDirPrefix = "" then env.DefaultRootWorkspacePrefix else e.TmpDirPrefix
  let (rootWorkspaceDir, err) := env.MkdirTemp basePath tmpDirPrefix
  if err ≠ .nil then
    some (runFailure ("failed to make temporary directory inside path, " ++
      env.quote basePath ++ ": " ++ fmtW err) err)
  else
    let err := env.PlaceWorkspaceRoot rootWorkspaceDir
    if err ≠ .nil then
      some (runFailure ("failed to create root workspace: " ++ fmtW err) err)
    else
      let localWorkspaceDir := env.Join rootWorkspaceDir "local"
      let err := env.Mkdir localWorkspaceDir
      if err ≠ .nil then
        some (runFailure ("failed to make directory: " ++ env.quote localWorkspaceDir ++
          ": " ++ fmtW err) err)
      else
        let err := env.PlaceWorkspace localWorkspaceDir
        if err ≠ .nil then
          some (runFailure ("failed to create local workspace at path: " ++
            env.quote localWorkspaceDir ++ ": " ++ fmtW err) err)
        else if localWorkspaceDir = "" then none
        else
          let (wss, err) := env.FindWorkspaceStack (localWorkspaceDir.drop 1)
          if err ≠ .nil then
            some (runFailure ("unable to find workspace stack: " ++ fmtW err) err)
          else
            let (plotCapsule, err) := env.UnmarshalDefaultPlot
            if err ≠ .nil then
              some (runFailure ("failed to deserialize default plot: " ++ fmtW err) err)
            else
              match plotCapsule.Plot with
              | none => some (runFailure "Execution failed: plot capsule missing plot" .nil)
              | some plot =>
                let catalogPath := env.Join "/" (env.CatalogBasePath wss)
                let err := env.InstallDefaultRemoteCatalog catalogPath
                if err ≠ .nil then
                  some { Code := CodeRunFailure, Message := .absent, Details := [], Cause := err }
                else
                  let err := env.Tidy wss plot
                  if err ≠ .nil then
                    some (runFailure ("Execution failed: " ++ fmtW err) err)
                  else
                    let config : PlotExecConfig :=
                      { Recursive := true, FormulaExecConfig := { DisableMemoization := true } }
                    let (result, err) := env.Exec wss plotCapsule config
                    if err ≠ .nil then
                      some (runFailure ("Execution failed: " ++ fmtW err) err)
                    else if !result.deepEqual invariant then
                      some (runFailure ("unexpected output: " ++ env.showResults result) .nil)
                    else
                      some { Code := CodeRunOkay, Message := .text "Execution Successful",
                             Details := [], Cause := .nil }

/-- The directory `Run` creates as root workspace. -/
def RunEnv.rootDir (env : RunEnv) (e : ExecutionInfo) : String :=
  (env.MkdirTemp (if e.BasePath = "" then env.DefaultBasePath else e.BasePath)
    (if e.TmpDirPrefix = "" then env.DefaultRootWorkspacePrefix else e.TmpDirPrefix)).1

/-- The directory `Run` creates as local workspace. -/
def RunEnv.localDir (env : RunEnv) (e : ExecutionInfo) : String :=
  env.Join (env.rootDir e) "local"

/-- The workspace stack `Run` finds. -/
def RunEnv.stack (env : RunEnv) (e : ExecutionInfo) : WorkspaceSet :=
  (env.FindWorkspaceStack ((env.localDir e).drop 1)).1

/-- Every setup stage of `Run` and the plot execution succeed: each call
returns a nil error and the default plot capsule holds a plot. -/
def RunEnv.stagesSucceed (env : RunEnv) (e : ExecutionInfo) : Prop :=
  (env.MkdirTemp (if e.BasePath = "" then env.DefaultBasePath else e.BasePath)
    (if e.TmpDirPrefix = "" then env.DefaultRootWorkspacePrefix else e.TmpDirPrefix)).2 = .nil ∧
  env.PlaceWorkspaceRoot (env.rootDir e) = .nil ∧
  env.Mkdir (env.localDir e) = .nil ∧
  env.PlaceWorkspace (env.localDir e) = .nil ∧
  (env.FindWorkspaceStack ((env.localDir e).drop 1)).2 = .nil ∧
  env.UnmarshalDefaultPlot.2 = .nil ∧
  ∃ plot, env.UnmarshalDefaultPlot.1.Plot = some plot ∧
    env.InstallDefaultRemoteCatalog (env.Join "/" (env.CatalogBasePath (env.stack e))) = .nil ∧
    env.Tidy (env.stack e) plot = .nil ∧
    (env.Exec (env.stack e) env.UnmarshalDefaultPlot.1 ⟨true, ⟨true⟩⟩).2 = .nil

/-- The output mapping the plot execution of `Run` produces. -/
def RunEnv.produced (env : RunEnv) (e : ExecutionInfo) : PlotResults :=
  (env.Exec (env.stack e) env.UnmarshalDefaultPlot.1 ⟨true, ⟨true⟩⟩).1

/-! ## `pkg/spark/format.go` -/

/-- The type `Markup`, a string. -/
abbrev Markup := String

/-- `MarkupAnsi`. -/
def MarkupAnsi : Markup := "ansi"

/-- `MarkupBash`. -/
def MarkupBash : Markup := "bash"

/-- `MarkupNone`. -/
def MarkupNone : Markup := "none"

/-- `MarkupPango`. -/
def MarkupPango : Markup := "pango"

/-- `MarkupList`. -/
def MarkupList : List Markup := [MarkupAnsi, MarkupBash, MarkupNone, MarkupPango]

/-- `DefaultMarkup`. -/
def DefaultMarkup : Markup := MarkupAnsi

/-- The constant `wfapi.ECodeInvalid`; its declaration is not among the
sources, the value is the code the doc comment of `ValidateMarkup` names. -/
def ECodeInvalid : String := "warpforge-error-invalid"

/-- `ValidateMarkup`: the markup and the error (`none` is nil). `ToLower` is
`strings.ToLower`. The loop over `MarkupList` returns at the first element
equal to the lowered input. -/
def ValidateMarkup (ToLower : String → String) (input : String) : Markup × Option SerumError :=
  let input := ToLower input
  match MarkupList.find? fun m => input == m with
  | some m => (m, none)
  | none =>
    (DefaultMarkup, some
      { Code := ECodeInvalid
        Message := .template "unrecognized markup \x7b\x7bmarkup|q\x7d\x7d"
        Details := [("markup", input)]
        Cause := .nil })

/-- Lowering of the ASCII letters, which is what `strings.ToLower` does on
ASCII text. -/
def asciiToLower (s : String) : String := String.mk (s.data.map Char.toLower)

/-- A concrete environment for `Run` in which every stage succeeds and the
plot execution produces `result`. -/
def demoRunEnv (result : PlotResults) : RunEnv where
  DefaultBasePath := "/tmp"
  DefaultRootWorkspacePrefix := "warpforge-health-check-"
  MkdirTemp := fun base pre => (base ++ "/" ++ pre ++ "1", .nil)
  PlaceWorkspaceRoot := fun _ => .nil
  Mkdir := fun _ => .nil
  PlaceWorkspace := fun _ => .nil
  Join := fun a b => a ++ "/" ++ b
  FindWorkspaceStack := fun _ => (⟨[], fun _ => (none, .nil)⟩, .nil)
  UnmarshalDefaultPlot := (⟨some ⟨⟨[], []⟩, ⟨[]⟩, ⟨["output"]⟩⟩⟩, .nil)
  CatalogBasePath := fun _ => "catalogs"
  InstallDefaultRemoteCatalog := fun _ => .nil
  Tidy := fun _ _ => .nil
  Exec := fun _ _ _ => (result, .nil)
  quote := fun s => "<" ++ s ++ ">"
  showResults := fun _ => "results"

/-- The type `Style`, a string. -/
abbrev Style := String

/-- `StyleApi`. -/
def StyleApi : Style := "api"

/-- `StylePhase`. -/
def StylePhase : Style := "phase"

/-- `StylePretty`. -/
def StylePretty : Style := "pretty"

/-- `StyleList`. -/
def StyleList : List Style := [StyleApi, StylePhase, StylePretty]

/-- `DefaultStyle`. -/
def DefaultStyle : Style := StylePretty

/-- `ValidateStyle`: the style and the error (`none` is nil). `ToLower` is
`strings.ToLower`. The loop over `StyleList` returns at the first element
equal to the lowered input. -/
def ValidateStyle (ToLower : String → String) (input : String) : Style × Option SerumError :=
  let input := ToLower input
  match StyleList.find? fun st => input == st with
  | some st => (st, none)
  | none =>
    (DefaultStyle, some
      { Code := ECodeInvalid
        Message := .template "unrecognized style \x7b\x7bstyle|q\x7d\x7d"
        Details := [("style", input)]
        Cause := .nil })

/-- The type `Phase`, a string. -/
abbrev Phase := String

/-- `Phase_NoModule`. -/
def Phase_NoModule : Phase := "nop"

/-- `Phase_NoSocket`. -/
def Phase_NoSocket : Phase := "dwn"

/-- `Phase_Wat`. -/
def Phase_Wat : Phase := "wat"

/-- `Phase_Err`. -/
def Phase_Err : Phase := "err"

/-- `Phase_NoPlan`. -/
def Phase_NoPlan : Phase := "non"

/-- `Phase_Queued`. -/
def Phase_Queued : Phase := "inq"

/-- `Phase_InProgress`. -/
def Phase_InProgress : Phase := "wip"

/-- `Phase_Rejected`. -/
def Phase_Rejected : Phase := "rej"

/-- `Phase_Saving`. -/
def Phase_Saving : Phase := "sav"

/-- `Phase_DoneGood`. -/
def Phase_DoneGood : Phase := "yay"

/-- `Phase_DoneNoGood`. -/
def Phase_DoneNoGood : Phase := "aww"

/-- The eleven `Phase` constants, in declaration order. -/
def phaseConstants : List Phase :=
  [Phase_NoModule, Phase_NoSocket, Phase_Wat, Phase_Err, Phase_NoPlan, Phase_Queued,
    Phase_InProgress, Phase_Rejected, Phase_Saving, Phase_DoneGood, Phase_DoneNoGood]

/-- The index expression `m[k]` on a Go map with string values, the map given
by the entries of its literal: the value of the entry with that key, the zero
value `""` when there is none. -/
def mapIndex (m : List (String × String)) (k : String) : String :=
  (m.lookup k).getD ""

/-- `dasMap`, by the entries of its literal. -/
def dasMap : List (Phase × String) :=
  [(Phase_NoModule, "---"),
   (Phase_NoSocket, "⌁⌁⌁"),
   (Phase_Wat, "⌁?⌁"),
   (Phase_Err, "⇃!⇂"),
   (Phase_NoPlan, "┐-┌"),
   (Phase_Queued, "⟨║⟩"),
   (Phase_InProgress, "⟨⇋⟩"),
   (Phase_Rejected, "═∅═"),
   (Phase_Saving, "⟨∴⟩"),
   (Phase_DoneGood, "↯↯↯"),
   (Phase_DoneNoGood, "↯!↯")]

/-- The struct `workspaceapi.ModuleStatusAnswer`, of which the status, a
string type, is read. -/
structure ModuleStatusAnswer where
  Status : String

/-- What `format.go` takes from outside the file: the six status constants of
package `workspaceapi`, the five error codes of package `spark`, and
`serum.Code`. -/
structure SparkEnv where
  ModuleStatus_NoInfo : String
  ModuleStatus_Queuing : String
  ModuleStatus_InProgress : String
  ModuleStatus_FailedProvisioning : String
  ModuleStatus_ExecutedSuccess : String
  ModuleStatus_ExecutedFailed : String
  ECodeSparkNoModule : String
  ECodeSparkNoWorkspace : String
  ECodeSparkNoSocket : String
  ECodeSparkServer : String
  ECodeSparkInternal : String
  Code : GoError → String

/-- `Status2Phase`, by the entries of its literal. -/
def Status2Phase (env : SparkEnv) : List (String × Phase) :=
  [(env.ModuleStatus_NoInfo, Phase_NoPlan),
   (env.ModuleStatus_Queuing, Phase_Queued),
   (env.ModuleStatus_InProgress, Phase_InProgress),
   (env.ModuleStatus_FailedProvisioning, Phase_Rejected),
   (env.ModuleStatus_ExecutedSuccess, Phase_DoneGood),
   (env.ModuleStatus_ExecutedFailed, Phase_DoneNoGood)]

/-- `Code2Phase`. -/
def Code2Phase (env : SparkEnv) (code : String) : Phase :=
  if code = env.ECodeSparkNoModule ∨ code = env.ECodeSparkNoWorkspace then Phase_NoModule
  else if code = env.ECodeSparkNoSocket then Phase_NoSocket
  else if code = env.ECodeSparkServer then Phase_Err
  else if code = env.ECodeSparkInternal then Phase_Wat
  else Phase_Wat

/-- `formatPhase`. -/
def formatPhase (env : SparkEnv) (a : ModuleStatusAnswer) (err : GoError) : Phase :=
  if err ≠ .nil then Code2Phase env (env.Code err)
  else mapIndex (Status2Phase env) a.Status

/-- The struct `formatter`. -/
structure formatter where
  Markup : Markup
  Style : Style
  color : Bool

/-- `formatter.formatStyle`. -/
def formatter.formatStyle (env : SparkEnv) (f : formatter) (a : ModuleStatusAnswer)
    (err : GoError) : String :=
  if f.Style = StylePretty then mapIndex dasMap (formatPhase env a err)
  else if f.Style = StylePhase then formatPhase env a err
  else if err ≠ .nil then env.Code err
  else a.Status

/-- The phase a pretty rendering stands for: `dasMap` read from value to key. -/
def phaseOfRendering (rendering : String) : Phase :=
  mapIndex (dasMap.map fun kv => (kv.2, kv.1)) rendering

/-- A concrete choice of the constants of the other packages, with an error's
code read from the `Error` it holds. -/
def demoSparkEnv : SparkEnv where
  ModuleStatus_NoInfo := "noinfo"
  ModuleStatus_Queuing := "queuing"
  ModuleStatus_InProgress := "inprogress"
  ModuleStatus_FailedProvisioning := "failed_provisioning"
  ModuleStatus_ExecutedSuccess := "executed_success"
  ModuleStatus_ExecutedFailed := "executed_failed"
  ECodeSparkNoModule := "warpforge-spark-no-module"
  ECodeSparkNoWorkspace := "warpforge-spark-no-workspace"
  ECodeSparkNoSocket := "warpforge-spark-no-socket"
  ECodeSparkServer := "warpforge-spark-server"
  ECodeSparkInternal := "warpforge-spark-internal"
  Code := fun err =>
    match err with
    | .structured (.ref e) => GoString.toText e.Code
    | _ => ""

/-- The two warnings that report a plot as not hermetic. -/
def Out.isHermeticWarning : Out → Bool
  | .ingestWarning _ => true
  | .mountWarning _ => true
  | _ => false

/-- An input the loop classifies as a mount or as an ingest. -/
def PlotInput.nonHermetic (input : PlotInput) : Bool :=
  input.classifiedMount || input.classifiedIngest

/-- The plot without the inputs the loop classifies as mount or ingest. -/
def Plot.hermeticPart (plot : Plot) : Plot :=
  { plot with Inputs :=
      { plot.Inputs with Values := plot.Inputs.Values.filter fun kv => !kv.2.nonHermetic } }

/-- The environment in which the plot file holds `f` of what it holds. -/
def StatusEnv.withPlot (env : StatusEnv) (f : Plot → Plot) : StatusEnv :=
  { env with PlotFromFile := fun path => (f (env.PlotFromFile path).1, (env.PlotFromFile path).2) }

/-- `cmdStatus` gets as far as the block `if hasPlot`, with `plot` read from
the plot file: the plugin checks do not return, the working directory holds a
module file and a plot file, and both are read without error. -/
def StatusEnv.readsPlot (env : StatusEnv) (plot : Plot) : Prop :=
  env.BinPath.2 = .nil ∧ env.Getwd.2 = .nil ∧
  (env.IsNotExist (env.Stat (env.Join env.BinPath.1 "runc")) = true ∨
    (env.RunRuncVersion (env.Join env.BinPath.1 "runc")).2 = .nil) ∧
  env.Stat (env.Join env.Getwd.1 env.MagicFilename_Module) = .nil ∧
  (env.ModuleFromFile (env.Join env.Getwd.1 env.MagicFilename_Module)).2 = .nil ∧
  (env.ModuleFromFile (env.Join env.Getwd.1 env.MagicFilename_Module)).1.isSome = true ∧
  env.Stat (env.Join env.Getwd.1 env.MagicFilename_Plot) = .nil ∧
  env.PlotFromFile (env.Join env.Getwd.1 env.MagicFilename_Plot) = (plot, .nil)

/-- The concrete environment with a catalog that cannot be read: every
lookup returns an error. -/
def failingLookupEnv : StatusEnv :=
  (demoEnv demoPlot).withLookup fun _ => (none, .other "catalog unreadable")

/-- The lines the block `if hasPlot` writes: the plot summary, a missing
catalog item, the catalog counts and the three warnings. No other part of
`cmdStatus` writes one of these. -/
def Out.isPlotLine : Out → Bool
  | .plotHas _ _ _ => true
  | .missingCatalogItem _ => true
  | .catalogInputs _ _ _ => true
  | .unresolvedWarning _ => true
  | .ingestWarning _ => true
  | .mountWarning _ => true
  | _ => false

/-- The line the loop writes for an input: `Missing catalog item` with the
reference, for a catalog input whose lookup yields no ware; none otherwise. -/
def WorkspaceSet.missingLine (wss : WorkspaceSet) (input : PlotInput) : Option Out :=
  if wss.unresolved input then input.classifiedCatalogRef.map Out.missingCatalogItem else none

/-- The `Missing catalog item` lines for the inputs in the order the loop
visits them. -/
def WorkspaceSet.missingLines (wss : WorkspaceSet) (inputs : List PlotInput) : List Out :=
  inputs.filterMap wss.missingLine

/-! ## Theorems -/

/-- C1: `wrapErr` passes every `*Error` through unchanged, and on every
non-nil error wrapping twice gives what wrapping once gives. -/
theorem wrapErr_passthrough_idempotent :
    (∀ e : ErrorPtr, wrapErr (.structured e) = some e) ∧
    (∀ x : GoError, x ≠ .nil →
      ∃ w, wrapErr x = some w ∧ wrapErr (.structured w) = wrapErr x) := by
  refine ⟨fun e => rfl, ?_⟩
  intro x hx
  cases x with
  | nil => exact absurd rfl hx
  | structured p => exact ⟨p, rfl, rfl⟩
  | other text => exact ⟨_, rfl, rfl⟩
  | formatter text s v => exact ⟨_, rfl, rfl⟩

/-- C1 at concrete inputs: a structured two-level error and a plain error. -/
theorem wrapErr_passthrough_idempotent_witness :
    wrapErr (.structured (.ref (.mk "k" "outer" (some [("a", "b")]) (.ref (.mk "" "inner" none .nil)))))
      = some (.ref (.mk "k" "outer" (some [("a", "b")]) (.ref (.mk "" "inner" none .nil)))) ∧
    (∃ w, wrapErr (.other "boom") = some w ∧
      wrapErr (.structured w) = wrapErr (.other "boom")) :=
  ⟨wrapErr_passthrough_idempotent.1 _,
   wrapErr_passthrough_idempotent.2 (.other "boom") (by decide)⟩

/-- C2: wrapping a non-nil error that is not a `*Error` gives an `Error` with
empty code, the error text as message, no details and no cause. -/
theorem wrapErr_plain (x : GoError) (hx : x ≠ .nil) (hns : ∀ p, x ≠ .structured p) :
    ∃ text, x.Error = some text ∧ wrapErr x = some (.ref (.mk "" text none .nil)) := by
  cases x with
  | nil => exact absurd rfl hx
  | structured p => exact absurd rfl (hns p)
  | other text => exact ⟨text, rfl, rfl⟩
  | formatter text s v => exact ⟨text, rfl, rfl⟩

/-- C2 at a concrete plain error. -/
theorem wrapErr_plain_witness :
    ∃ text, (GoError.other "no such file").Error = some text ∧
      wrapErr (.other "no such file") = some (.ref (.mk "" text none .nil)) :=
  wrapErr_plain (.other "no such file") (by decide) (fun p => by simp)

/-- C3: for every non-nil cause each construction helper returns an `Error`
with its own fixed code, the four codes being pairwise distinct, and with the
wrapped cause as `Cause`: a structured cause itself, a plain cause as
`{code "", message text}`, whether or not its type has a `Format` method. -/
theorem constructors_fix_code_and_wrap_cause (quote : GoString → GoString)
    (msgTmpl searchingFor wsPath engineName : GoString) (cause : GoError) (h : cause ≠ .nil) :
    ∃ c eU eS eW eX, wrapErr cause = some c ∧
      ErrorUnknown msgTmpl cause = some (.ref eU) ∧
      ErrorSearchingFilesystem searchingFor cause = some (.ref eS) ∧
      ErrorWorkspace quote wsPath cause = some (.ref eW) ∧
      ErrorExecutorFailed engineName cause = some (.ref eX) ∧
      eU.Code = "warpforge-error-unknown" ∧
      eS.Code = "warpforge-error-searching-filesystem" ∧
      eW.Code = "warpforge-error-workspace" ∧
      eX.Code = "warpforge-error-executor-failed" ∧
      [eU.Code, eS.Code, eW.Code, eX.Code].Nodup ∧
      eU.Cause = c ∧ eS.Cause = c ∧ eW.Cause = c ∧ eX.Cause = c ∧
      (∀ p, cause = .structured p → c = p) ∧
      (∀ text, cause = .other text → c = .ref (.mk "" text none .nil)) ∧
      (∀ text s v, cause = .formatter text s v → c = .ref (.mk "" text none .nil)) := by
  cases cause with
  | nil => exact absurd rfl h
  | structured p =>
    refine ⟨p, _, _, _, _, rfl, rfl, rfl, rfl, rfl, rfl, rfl, rfl, rfl, ?_, rfl, rfl, rfl, rfl,
      ?_, ?_, ?_⟩
    · simp only [Error.Code]; decide
    · intro q hq; cases hq; rfl
    · intro t ht; cases ht
    · intro t s v ht; cases ht
  | other text =>
    refine ⟨_, _, _, _, _, rfl, rfl, rfl, rfl, rfl, rfl, rfl, rfl, rfl, ?_, rfl, rfl, rfl, rfl,
      ?_, ?_, ?_⟩
    · simp only [Error.Code]; decide
    · intro q hq; cases hq
    · intro t ht; cases ht; rfl
    · intro t s v ht; cases ht
  | formatter text s v =>
    refine ⟨_, _, _, _, _, rfl, rfl, rfl, rfl, rfl, rfl, rfl, rfl, rfl, ?_, rfl, rfl, rfl, rfl,
      ?_, ?_, ?_⟩
    · simp only [Error.Code]; decide
    · intro q hq; cases hq
    · intro t ht; cases ht
    · intro t s2 v2 ht; cases ht; rfl

/-- C3 at a concrete plain cause. -/
theorem constructors_fix_code_and_wrap_cause_witness :
    ∃ c eU eS eW eX, wrapErr (.other "disk full") = some c ∧
      ErrorUnknown "oops" (.other "disk full") = some (.ref eU) ∧
      ErrorSearchingFilesystem "module" (.other "disk full") = some (.ref eS) ∧
      ErrorWorkspace id "/ws" (.other "disk full") = some (.ref eW) ∧
      ErrorExecutorFailed "runc" (.other "disk full") = some (.ref eX) ∧
      eU.Code = "warpforge-error-unknown" ∧
      eS.Code = "warpforge-error-searching-filesystem" ∧
      eW.Code = "warpforge-error-workspace" ∧
      eX.Code = "warpforge-error-executor-failed" ∧
      [eU.Code, eS.Code, eW.Code, eX.Code].Nodup ∧
      eU.Cause = c ∧ eS.Cause = c ∧ eW.Cause = c ∧ eX.Cause = c ∧
      (∀ p, GoError.other "disk full" = .structured p → c = p) ∧
      (∀ text, GoError.other "disk full" = .other text → c = .ref (.mk "" text none .nil)) ∧
      (∀ text s v, GoError.other "disk full" = .formatter text s v →
        c = .ref (.mk "" text none .nil)) :=
  constructors_fix_code_and_wrap_cause id "oops" "module" "/ws" "runc" (.other "disk full")
    (by decide)

/-- C4, as the claim states it, fails: for a cause whose type implements
`fmt.Formatter`, with `Error()` text `exit status 1` and a `Format` method that
writes `FORMATTED`, the message of `ErrorExecutorFailed("runc", cause)` ends in
`FORMATTED` and the text of the cause does not occur in it. -/
theorem executorFailed_formatter_counterexample :
    (GoError.formatter "exit status 1" "FORMATTED" "FORMATTED").Error = some "exit status 1" ∧
    ErrorExecutorFailed "runc" (.formatter "exit status 1" "FORMATTED" "FORMATTED") =
      some (.ref (.mk "warpforge-error-executor-failed"
        "executor engine failed: the runc engine reported error: FORMATTED"
        (some [("engineName", "runc")]) (.ref (.mk "" "exit status 1" none .nil)))) ∧
    ¬ (GoString.ofString "exit status 1" <:+:
        GoString.ofString "executor engine failed: the runc engine reported error: FORMATTED") ∧
    ¬ ∀ (n : GoString) (c : GoError) (text : GoString), c ≠ .nil → c.Error = some text →
      ∃ e, ErrorExecutorFailed n c = some (.ref e) ∧
        e.Details = some [(("engineName" : GoString), n)] ∧
        e.Message =
          "executor engine failed: the " ++ n ++ " engine reported error: " ++ text := by
  refine ⟨rfl, by decide, by decide, ?_⟩
  intro h
  obtain ⟨e, he, -, hm⟩ := h "runc" (.formatter "exit status 1" "FORMATTED" "FORMATTED")
    "exit status 1" (by decide) rfl
  have he2 : e = .mk "warpforge-error-executor-failed"
      "executor engine failed: the runc engine reported error: FORMATTED"
      (some [("engineName", "runc")]) (.ref (.mk "" "exit status 1" none .nil)) := by
    have h2 : ErrorExecutorFailed "runc" (.formatter "exit status 1" "FORMATTED" "FORMATTED") =
        some (.ref (.mk "warpforge-error-executor-failed"
          "executor engine failed: the runc engine reported error: FORMATTED"
          (some [("engineName", "runc")]) (.ref (.mk "" "exit status 1" none .nil)))) := by
      decide
    rw [h2] at he
    injection he with he
    injection he with he
    exact he.symm
  subst he2
  revert hm
  decide

/-- C4, amended: for every engine name and non-nil cause, `ErrorExecutorFailed`
has the single detail `("engineName", n)` and the message
`executor engine failed: the <n> engine reported error: <cause under %s>`;
the name and that rendering occur in the message unmodified; the rendering is
the text `Error()` returns for every cause whose type does not implement
`fmt.Formatter` and whose `Error()` returns, it is what `Format` writes for a
cause whose type does, and `<nil>` for a nil `*Error`. -/
theorem executorFailed_carries_name_and_text (n : GoString) (c : GoError) (hc : c ≠ .nil) :
    ∃ e, ErrorExecutorFailed n c = some (.ref e) ∧
      e.Details = some [(("engineName" : GoString), n)] ∧
      e.Message = "executor engine failed: the " ++ n ++ " engine reported error: " ++ fmtS c ∧
      (c.isFormatter = false → ∀ text, c.Error = some text → fmtS c = text) ∧
      (∀ text s v, c = .formatter text s v → fmtS c = s) ∧
      (c = .structured .nil → fmtS c = "<nil>") ∧
      n <:+: e.Message ∧ fmtS c <:+: e.Message := by
  have htext : c.isFormatter = false → ∀ text, c.Error = some text → fmtS c = text := by
    intro hf text ht
    cases c with
    | nil => cases ht
    | structured p =>
      cases p with
      | nil => cases ht
      | ref e => simpa [GoError.Error, ErrorPtr.Error, fmtS] using ht
    | other t => simpa [GoError.Error, fmtS] using ht
    | formatter t s v => cases hf
  have hfmt : ∀ text s v, c = .formatter text s v → fmtS c = s := by
    intro text s v h
    subst h
    rfl
  have hnil : c = .structured .nil → fmtS c = "<nil>" := by
    intro h
    subst h
    rfl
  have hn : n <:+: (("executor engine failed: the " : GoString) ++ n ++
      (" engine reported error: " : GoString) ++ fmtS c) :=
    ⟨("executor engine failed: the " : GoString),
      (" engine reported error: " : GoString) ++ fmtS c, by simp [List.append_assoc]⟩
  have ht : fmtS c <:+: (("executor engine failed: the " : GoString) ++ n ++
      (" engine reported error: " : GoString) ++ fmtS c) :=
    ⟨("executor engine failed: the " : GoString) ++ n ++
      (" engine reported error: " : GoString), [], by simp [List.append_assoc]⟩
  cases c with
  | nil => exact absurd rfl hc
  | structured p => exact ⟨_, rfl, rfl, rfl, htext, hfmt, hnil, hn, ht⟩
  | other t => exact ⟨_, rfl, rfl, rfl, htext, hfmt, hnil, hn, ht⟩
  | formatter t s v => exact ⟨_, rfl, rfl, rfl, htext, hfmt, hnil, hn, ht⟩

/-- C4, amended, at the engine `runc` with a plain cause. -/
theorem executorFailed_carries_name_and_text_witness :
    ∃ e, ErrorExecutorFailed "runc" (.other "exit status 1") = some (.ref e) ∧
      e.Details = some [(("engineName" : GoString), ("runc" : GoString))] ∧
      e.Message = "executor engine failed: the " ++ "runc" ++ " engine reported error: " ++
        fmtS (.other "exit status 1") ∧
      ((GoError.other "exit status 1").isFormatter = false →
        ∀ text, (GoError.other "exit status 1").Error = some text →
          fmtS (.other "exit status 1") = text) ∧
      (∀ text s v, GoError.other "exit status 1" = .formatter text s v →
        fmtS (.other "exit status 1") = s) ∧
      (GoError.other "exit status 1" = .structured .nil →
        fmtS (.other "exit status 1") = "<nil>") ∧
      GoString.ofString "runc" <:+: e.Message ∧
      fmtS (.other "exit status 1") <:+: e.Message :=
  executorFailed_carries_name_and_text "runc" (.other "exit status 1") (by decide)

theorem toText_ofString (s : String) : GoString.toText (GoString.ofString s) = s := by
  simp [GoString.toText, GoString.ofString, List.map_map, Function.comp_def]

theorem coerce_nil : GoString.coerce [] = [] := rfl

theorem coerce_cons (r : GoRune) (s : GoString) :
    GoString.coerce (r :: s) =
      GoRune.rune (match r with
        | .rune c => c
        | .bad _ => Char.ofNat 0xFFFD) :: GoString.coerce s := by
  simp [GoString.coerce, GoString.toText, GoString.ofString]

theorem coerce_eq_iff_valid (s : GoString) : GoString.coerce s = s ↔ GoString.valid s = true := by
  induction s with
  | nil => simp [coerce_nil, GoString.valid]
  | cons r s ih =>
    have hv : GoString.valid (r :: s) = ((match r with
        | .rune _ => true
        | .bad _ => false) && GoString.valid s) := by
      simp [GoString.valid]
    rw [coerce_cons, hv]
    cases r with
    | rune c => simp [ih]
    | bad b => simp

theorem coerce_ofString (s : String) : GoString.coerce (GoString.ofString s) = GoString.ofString s := by
  rw [GoString.coerce, toText_ofString]

theorem coerceDetails_eq_iff_valid (d : Option (List (GoString × GoString))) :
    coerceDetails d = d ↔ validDetails d = true := by
  cases d with
  | none => simp [coerceDetails, validDetails]
  | some pairs =>
    simp only [coerceDetails, validDetails, Option.some.injEq]
    induction pairs with
    | nil => simp
    | cons kv rest ih =>
      obtain ⟨k, v⟩ := kv
      simp [ih, coerce_eq_iff_valid, and_assoc]

mutual
theorem error_coerced_eq_iff_valid : ∀ e : Error, e.coerced = e ↔ e.valid = true
  | .mk c m d cause => by
    simp [Error.coerced, Error.valid, coerce_eq_iff_valid, coerceDetails_eq_iff_valid,
      errorPtr_coerced_eq_iff_valid cause, and_assoc]
theorem errorPtr_coerced_eq_iff_valid : ∀ p : ErrorPtr, p.coerced = p ↔ p.valid = true
  | .nil => by simp [ErrorPtr.coerced, ErrorPtr.valid]
  | .ref e => by
    simp [ErrorPtr.coerced, ErrorPtr.valid, error_coerced_eq_iff_valid e]
end

theorem unmarshalPairs_marshal (pairs : List (GoString × GoString)) :
    ∀ dst, unmarshalPairs dst (pairs.map fun kv =>
        JSON.arr [.str (GoString.toText kv.1), .str (GoString.toText kv.2)]) =
      some (pairs.map fun kv => (GoString.coerce kv.1, GoString.coerce kv.2)) := by
  induction pairs with
  | nil => intro dst; rfl
  | cons kv rest ih =>
    intro dst
    simp [unmarshalPairs, unmarshalPair, unmarshalString, ih, GoString.coerce]

theorem unmarshalDetails_marshal (d dst : Option (List (GoString × GoString))) :
    unmarshalDetails dst (marshalDetails d) = some (coerceDetails d) := by
  cases d with
  | none => rfl
  | some pairs => simp [marshalDetails, unmarshalDetails, unmarshalPairs_marshal, coerceDetails]

theorem unmarshalMembers_marshal_fields (foldName : String → String)
    (c m c0 m0 : GoString) (d d0 : Option (List (GoString × GoString))) (p0 : ErrorPtr)
    (causeDoc : JSON) :
    unmarshalMembers foldName (.mk c0 m0 d0 p0)
        [("Code", .str (GoString.toText c)), ("Message", .str (GoString.toText m)),
          ("Details", marshalDetails d), ("Cause", causeDoc)] =
      (unmarshalErrorPtr foldName p0 causeDoc).bind fun cause =>
        some (.mk (GoString.coerce c) (GoString.coerce m) (coerceDetails d) cause) := by
  have h : ∀ rest, unmarshalMembers foldName (.mk (GoString.coerce c) (GoString.coerce m) d0 p0)
      (("Details", marshalDetails d) :: rest) =
      (unmarshalDetails d0 (marshalDetails d)).bind fun x =>
        unmarshalMembers foldName (.mk (GoString.coerce c) (GoString.coerce m) x p0) rest :=
    fun _ => rfl
  show unmarshalMembers foldName (.mk (GoString.coerce c) (GoString.coerce m) d0 p0) _ = _
  rw [h, unmarshalDetails_marshal]
  rfl

mutual
theorem unmarshalError_marshal (foldName : String → String) :
    ∀ (e dst : Error), unmarshalError foldName dst e.marshal = some e.coerced
  | .mk c m d cause, .mk c0 m0 d0 p0 => by
    show unmarshalMembers foldName (.mk c0 m0 d0 p0) _ = _
    rw [unmarshalMembers_marshal_fields, unmarshalErrorPtr_marshal foldName cause p0]
    rfl
theorem unmarshalErrorPtr_marshal (foldName : String → String) :
    ∀ (p dst : ErrorPtr), unmarshalErrorPtr foldName dst p.marshal = some p.coerced
  | .nil, _ => rfl
  | .ref (.mk c m d cause), dst => by
    have h := unmarshalError_marshal foldName (.mk c m d cause) dst.pointee
    rw [ErrorPtr.marshal, Error.marshal] at *
    show (unmarshalMembers foldName dst.pointee _).bind _ = _
    have h2 : unmarshalMembers foldName dst.pointee
        [("Code", .str (GoString.toText c)), ("Message", .str (GoString.toText m)),
        ("Details", marshalDetails d), ("Cause", ErrorPtr.marshal cause)] =
        some (Error.coerced (.mk c m d cause)) := h
    rw [h2]
    rfl
end

theorem unmarshalTerminal_TerminalError (foldName : String → String) (p : ErrorPtr)
    (exitCode : Int) :
    unmarshalTerminal foldName (TerminalError p exitCode).1 = some p.coerced := by
  simp [unmarshalTerminal, TerminalError, List.foldlM, unmarshalErrorPtr_marshal]

/-- C5 fails on the code. `wrapErr(errors.New("bad\xffbyte"))` is the `Error`
with message `bad\xffbyte`; the document `TerminalError` writes for it
decodes to the `Error` with message `bad\ufffdbyte`, which is a different
value; likewise a detail value `\xc3` comes back as `\ufffd`. In general the
round trip gives the value with every string passed through the encoder's
replacement of invalid bytes, which is the value itself exactly when every
string at every level of the cause chain is valid UTF-8. -/
theorem error_roundtrip_invalid_utf8 :
    wrapErr (.other badText) = some (.ref (.mk "" badText none .nil)) ∧
    (∀ foldName : String → String,
      unmarshalTerminal foldName (TerminalError (.ref (.mk "" badText none .nil)) 1).1 =
        some (.ref (.mk "" ("bad" ++ [GoRune.rune (Char.ofNat 0xFFFD)] ++ "byte") none .nil))) ∧
    (∀ foldName : String → String,
      unmarshalErrorPtr foldName .nil (ErrorPtr.marshal (.ref (.mk "" badText none .nil))) =
        some (.ref (.mk "" ("bad" ++ [GoRune.rune (Char.ofNat 0xFFFD)] ++ "byte") none .nil))) ∧
    ErrorPtr.ref (.mk "" ("bad" ++ [GoRune.rune (Char.ofNat 0xFFFD)] ++ "byte") none .nil) ≠
      ErrorPtr.ref (.mk "" badText none .nil) ∧
    (∀ foldName : String → String,
      unmarshalErrorPtr foldName .nil (ErrorPtr.marshal
        (.ref (.mk "warpforge-error-workspace" "m" (some [("workspacePath", [GoRune.bad 0xc3])])
          .nil))) =
        some (.ref (.mk "warpforge-error-workspace" "m"
          (some [("workspacePath", [GoRune.rune (Char.ofNat 0xFFFD)])]) .nil))) ∧
    (∀ (foldName : String → String) (p : ErrorPtr),
      unmarshalErrorPtr foldName .nil p.marshal = some p.coerced) ∧
    (∀ (foldName : String → String) (e : Error),
      unmarshalError foldName Error.zero e.marshal = some e.coerced) ∧
    (∀ (foldName : String → String) (p : ErrorPtr) (exitCode : Int),
      unmarshalTerminal foldName (TerminalError p exitCode).1 = some p.coerced) ∧
    (∀ p : ErrorPtr, p.coerced = p ↔ p.valid = true) ∧
    (∀ s : String, GoString.coerce (GoString.ofString s) = GoString.ofString s) := by
  refine ⟨rfl, ?_, ?_, by decide, ?_, ?_, ?_, ?_, ?_, ?_⟩
  · intro foldName
    rw [unmarshalTerminal_TerminalError]
    decide
  · intro foldName
    rw [unmarshalErrorPtr_marshal]
    decide
  · intro foldName
    rw [unmarshalErrorPtr_marshal]
    decide
  · exact fun foldName p => unmarshalErrorPtr_marshal foldName p .nil
  · exact fun foldName e => unmarshalError_marshal foldName e Error.zero
  · exact fun foldName p exitCode => unmarshalTerminal_TerminalError foldName p exitCode
  · exact errorPtr_coerced_eq_iff_valid
  · exact coerce_ofString

theorem classifyInput_counts (wss : WorkspaceSet) (st : LoopState) (input : PlotInput) :
    (classifyInput wss st input).1.classified ≤ st.classified + 1 ∧
    st.catalogRefCount ≤ (classifyInput wss st input).1.catalogRefCount ∧
    st.mountCount ≤ (classifyInput wss st input).1.mountCount ∧
    st.ingestCount ≤ (classifyInput wss st input).1.ingestCount ∧
    ((classifyInput wss st input).2 = .nil →
      (classifyInput wss st input).1.classified + (if input.unclassified then 1 else 0) =
        st.classified + 1) := by
  obtain ⟨⟨m, g, c⟩⟩ := input
  cases m <;> cases g <;> cases c <;>
    simp [classifyInput, PlotInput.Basis, LoopState.classified, PlotInput.unclassified] <;>
    (try split) <;> (try split) <;> (try simp) <;> (try omega)

theorem classifyInputs_cons (wss : WorkspaceSet) (input : PlotInput) (rest : List PlotInput)
    (st0 : LoopState) :
    classifyInputs wss (input :: rest) st0 =
      if (classifyInput wss st0 input).2 ≠ .nil then classifyInput wss st0 input
      else classifyInputs wss rest (classifyInput wss st0 input).1 := by
  simp only [classifyInputs]

theorem classifyInputs_counts (wss : WorkspaceSet) :
    ∀ (inputs : List PlotInput) (st0 st : LoopState),
      classifyInputs wss inputs st0 = (st, .nil) →
      st.classified + inputs.countP PlotInput.unclassified = st0.classified + inputs.length
  | [], st0, st, h => by
    simp only [classifyInputs, Prod.mk.injEq] at h
    simp [h.1]
  | input :: rest, st0, st, h => by
    rw [classifyInputs_cons] at h
    by_cases he : (classifyInput wss st0 input).2 = .nil
    · rw [if_neg (not_not.mpr he)] at h
      have ih := classifyInputs_counts wss rest _ st h
      have h1 := (classifyInput_counts wss st0 input).2.2.2.2 he
      rw [List.countP_cons, List.length_cons]
      omega
    · rw [if_pos he] at h
      exact absurd (by rw [h]) he

theorem countP_unclassified_of_exactlyOne (inputs : List PlotInput)
    (h : ∀ input ∈ inputs, input.exactlyOne = true) :
    inputs.countP PlotInput.unclassified = 0 := by
  rw [List.countP_eq_zero]
  intro input hin
  have := h input hin
  obtain ⟨⟨m, g, c⟩⟩ := input
  cases m <;> cases g <;> cases c <;>
    simp_all [PlotInput.exactlyOne, PlotInput.unclassified, PlotInput.Basis]

/-- C6, as the claim states it, fails: a plot with one input none of whose
three basis pointers is set leaves all three counters at zero. -/
theorem classify_sum_counterexample :
    ¬ ∀ (wss : WorkspaceSet) (plot : Plot) (st : LoopState),
      classifyInputs wss plot.inputList LoopState.init = (st, .nil) →
      st.catalogRefCount + st.mountCount + st.ingestCount = plot.Inputs.Values.length := by
  intro h
  have := h ⟨[], fun _ => (none, .nil)⟩
    ⟨⟨["x"], [("x", ⟨⟨none, none, none⟩⟩)]⟩, ⟨[]⟩, ⟨[]⟩⟩ LoopState.init rfl
  exact absurd this (by decide)

/-- C6, amended: when the loop runs to its end, each input has incremented at
most one of the three counters, by one; the counters sum to the number of
inputs that have one of the three basis pointers set, so to at most
`len(plot.Inputs.Values)`, and to exactly that when every input has one of the
three set, in particular when exactly one variant is populated per input. -/
theorem classify_sum (wss : WorkspaceSet) (plot : Plot) (st : LoopState)
    (h : classifyInputs wss plot.inputList LoopState.init = (st, .nil)) :
    st.catalogRefCount + st.mountCount + st.ingestCount +
        plot.inputList.countP PlotInput.unclassified = plot.Inputs.Values.length ∧
    st.catalogRefCount + st.mountCount + st.ingestCount ≤ plot.Inputs.Values.length ∧
    ((∀ input ∈ plot.inputList, input.unclassified = false) →
      st.catalogRefCount + st.mountCount + st.ingestCount = plot.Inputs.Values.length) ∧
    ((∀ input ∈ plot.inputList, input.exactlyOne = true) →
      st.catalogRefCount + st.mountCount + st.ingestCount = plot.Inputs.Values.length) ∧
    (∀ (st0 : LoopState) (input : PlotInput),
      (classifyInput wss st0 input).1.catalogRefCount +
          (classifyInput wss st0 input).1.mountCount +
          (classifyInput wss st0 input).1.ingestCount ≤
        st0.catalogRefCount + st0.mountCount + st0.ingestCount + 1 ∧
      st0.catalogRefCount ≤ (classifyInput wss st0 input).1.catalogRefCount ∧
      st0.mountCount ≤ (classifyInput wss st0 input).1.mountCount ∧
      st0.ingestCount ≤ (classifyInput wss st0 input).1.ingestCount) := by
  have hc := classifyInputs_counts wss plot.inputList LoopState.init st h
  have hlen : plot.inputList.length = plot.Inputs.Values.length := by
    simp [Plot.inputList]
  simp only [LoopState.classified, LoopState.init] at hc
  refine ⟨by omega, by omega, ?_, ?_, ?_⟩
  · intro hu
    have : plot.inputList.countP PlotInput.unclassified = 0 := by
      rw [List.countP_eq_zero]
      intro input hin
      simp [hu input hin]
    omega
  · intro hu
    have := countP_unclassified_of_exactlyOne plot.inputList hu
    omega
  · intro st0 input
    have := classifyInput_counts wss st0 input
    simp only [LoopState.classified] at this
    exact ⟨this.1, this.2.1, this.2.2.1, this.2.2.2.1⟩

/-- C6, amended, at the concrete plot: a mount, an ingest, two catalog
references and an input with none of the three; the counters sum to four of
the five inputs. -/
theorem classify_sum_witness :
    classifyInputs ⟨[], fun _ => (none, .nil)⟩ demoPlot.inputList LoopState.init =
      (⟨2, 0, 1, 1, [.missingCatalogItem ⟨"m", "r", "i"⟩, .missingCatalogItem ⟨"m", "r", "j"⟩]⟩,
        .nil) ∧
    (2 : Nat) + 1 + 1 + demoPlot.inputList.countP PlotInput.unclassified =
      demoPlot.Inputs.Values.length :=
  ⟨rfl, (classify_sum ⟨[], fun _ => (none, .nil)⟩ demoPlot
    ⟨2, 0, 1, 1, [.missingCatalogItem ⟨"m", "r", "i"⟩, .missingCatalogItem ⟨"m", "r", "j"⟩]⟩
    rfl).1⟩

theorem classifyInput_tally (wss : WorkspaceSet) (st : LoopState) (input : PlotInput)
    (h : (classifyInput wss st input).2 = .nil) :
    (classifyInput wss st input).1.catalogRefCount =
      st.catalogRefCount + (if input.classifiedCatalog then 1 else 0) ∧
    (classifyInput wss st input).1.resolvedCatalogRefCount +
        (if wss.unresolved input then 1 else 0) =
      st.resolvedCatalogRefCount + (if input.classifiedCatalog then 1 else 0) ∧
    (classifyInput wss st input).1.mountCount =
      st.mountCount + (if input.classifiedMount then 1 else 0) ∧
    (classifyInput wss st input).1.ingestCount =
      st.ingestCount + (if input.classifiedIngest then 1 else 0) := by
  obtain ⟨⟨m, g, c⟩⟩ := input
  cases m <;> cases g <;> cases c <;>
    simp [classifyInput, PlotInput.Basis, PlotInput.classifiedCatalogRef,
      PlotInput.classifiedCatalog, PlotInput.classifiedMount, PlotInput.classifiedIngest,
      WorkspaceSet.unresolved] at h ⊢
  rename_i ref
  cases hw : wss.GetCatalogWare ref with
  | mk ware err =>
    simp only [hw] at h ⊢
    by_cases he : err = .nil
    · subst he
      cases ware <;> simp
    · simp [he] at h

theorem classifyInput_ok (wss : WorkspaceSet) (st : LoopState) (input : PlotInput)
    (hl : ∀ ref, (wss.GetCatalogWare ref).2 = .nil) :
    (classifyInput wss st input).2 = .nil := by
  obtain ⟨⟨m, g, c⟩⟩ := input
  cases m <;> cases g <;> cases c <;>
    simp [classifyInput, PlotInput.Basis]
  rename_i ref
  have := hl ref
  cases hw : wss.GetCatalogWare ref with
  | mk ware err =>
    simp only [hw] at this ⊢
    subst this
    cases ware <;> simp

theorem classifyInput_written (wss : WorkspaceSet) (st : LoopState) (input : PlotInput) :
    ∀ o ∈ (classifyInput wss st input).1.written,
      o ∈ st.written ∨ ∃ ref, o = Out.missingCatalogItem ref := by
  obtain ⟨⟨m, g, c⟩⟩ := input
  intro o ho
  cases m <;> cases g <;> cases c <;>
    simp [classifyInput, PlotInput.Basis] at ho <;> (try exact Or.inl ho)
  rename_i ref
  cases hw : wss.GetCatalogWare ref with
  | mk ware err =>
    simp only [hw] at ho
    by_cases he : err = .nil
    · subst he
      cases ware
      · simp at ho
        rcases ho with ho | ho
        · exact Or.inl ho
        · exact Or.inr ⟨ref, ho⟩
      · simp at ho
        exact Or.inl ho
    · simp [he] at ho
      exact Or.inl ho

theorem classifyInputs_ok (wss : WorkspaceSet) (hl : ∀ ref, (wss.GetCatalogWare ref).2 = .nil) :
    ∀ (inputs : List PlotInput) (st0 : LoopState), (classifyInputs wss inputs st0).2 = .nil
  | [], _ => rfl
  | input :: rest, st0 => by
    rw [classifyInputs_cons, if_neg (not_not.mpr (classifyInput_ok wss st0 input hl))]
    exact classifyInputs_ok wss hl rest _

theorem classifyInputs_tally (wss : WorkspaceSet) :
    ∀ (inputs : List PlotInput) (st0 st : LoopState),
      classifyInputs wss inputs st0 = (st, .nil) →
      st.catalogRefCount = st0.catalogRefCount + inputs.countP PlotInput.classifiedCatalog ∧
      st.resolvedCatalogRefCount + inputs.countP wss.unresolved =
        st0.resolvedCatalogRefCount + inputs.countP PlotInput.classifiedCatalog ∧
      st.mountCount = st0.mountCount + inputs.countP PlotInput.classifiedMount ∧
      st.ingestCount = st0.ingestCount + inputs.countP PlotInput.classifiedIngest
  | [], st0, st, h => by
    simp only [classifyInputs, Prod.mk.injEq] at h
    simp [h.1]
  | input :: rest, st0, st, h => by
    rw [classifyInputs_cons] at h
    by_cases he : (classifyInput wss st0 input).2 = .nil
    · rw [if_neg (not_not.mpr he)] at h
      have ih := classifyInputs_tally wss rest _ st h
      have h1 := classifyInput_tally wss st0 input he
      simp only [List.countP_cons]
      omega
    · rw [if_pos he] at h
      exact absurd (by rw [h]) he

theorem classifyInputs_written (wss : WorkspaceSet) :
    ∀ (inputs : List PlotInput) (st0 : LoopState),
      ∀ o ∈ (classifyInputs wss inputs st0).1.written,
        o ∈ st0.written ∨ ∃ ref, o = Out.missingCatalogItem ref
  | [], _, o, ho => Or.inl ho
  | input :: rest, st0, o, ho => by
    rw [classifyInputs_cons] at ho
    by_cases he : (classifyInput wss st0 input).2 = .nil
    · rw [if_neg (not_not.mpr he)] at ho
      rcases classifyInputs_written wss rest _ o ho with h | h
      · exact classifyInput_written wss st0 input o h
      · exact Or.inr h
    · rw [if_pos he] at ho
      exact classifyInput_written wss st0 input o ho

theorem plotReport_eq (env : StatusEnv) (plot : Plot) (hw : env.OpenWorkspaceSet.2 = .nil)
    (hl : ∀ ref, (env.OpenWorkspaceSet.1.GetCatalogWare ref).2 = .nil) :
    plotReport env plot =
      ([Out.plotHas plot.Inputs.Keys.length plot.Steps.Keys.length plot.Outputs.Keys.length] ++
        (classifyInputs env.OpenWorkspaceSet.1 plot.inputList LoopState.init).1.written ++
        [Out.catalogInputs
          (classifyInputs env.OpenWorkspaceSet.1 plot.inputList LoopState.init).1.catalogRefCount
          (classifyInputs env.OpenWorkspaceSet.1 plot.inputList
            LoopState.init).1.resolvedCatalogRefCount
          (classifyInputs env.OpenWorkspaceSet.1 plot.inputList
            LoopState.init).1.catalogRefCount] ++
        plotWarnings (classifyInputs env.OpenWorkspaceSet.1 plot.inputList LoopState.init).1,
        .nil) := by
  have h2 := classifyInputs_ok env.OpenWorkspaceSet.1 hl plot.inputList LoopState.init
  unfold plotReport
  rcases hO : env.OpenWorkspaceSet with ⟨wss, err⟩
  rw [hO] at hw h2
  simp only at hw h2 ⊢
  subst hw
  rcases hC : classifyInputs wss plot.inputList LoopState.init with ⟨st, e⟩
  rw [hC] at h2
  simp only at h2
  subst h2
  simp

theorem plotReport_snd (env : StatusEnv) (plot : Plot)
    (hl : ∀ ref, (env.OpenWorkspaceSet.1.GetCatalogWare ref).2 = .nil) :
    (plotReport env plot).2 =
      if env.OpenWorkspaceSet.2 ≠ .nil then
        .other ("failed to open workspace: " ++ fmtS env.OpenWorkspaceSet.2)
      else .nil := by
  by_cases hw : env.OpenWorkspaceSet.2 = .nil
  · rw [plotReport_eq env plot hw hl, if_neg (not_not.mpr hw)]
  · rw [if_pos hw]
    unfold plotReport
    rcases hO : env.OpenWorkspaceSet with ⟨wss, err⟩
    rw [hO] at hw
    simp only at hw ⊢
    rw [if_pos hw]

theorem workspaceReport_withLookup (env : StatusEnv)
    (lookup : CatalogRef → Option WareID × GoError) (cwd : String) (a b : Bool) :
    workspaceReport (env.withLookup lookup) cwd a b = workspaceReport env cwd a b := rfl

theorem plotReport_snd_withLookup (env : StatusEnv)
    (lookup : CatalogRef → Option WareID × GoError) (plot : Plot)
    (hl : ∀ ref, (env.OpenWorkspaceSet.1.GetCatalogWare ref).2 = .nil)
    (hl2 : ∀ ref, (lookup ref).2 = .nil) :
    (plotReport (env.withLookup lookup) plot).2 = (plotReport env plot).2 := by
  rw [plotReport_snd env plot hl, plotReport_snd (env.withLookup lookup) plot hl2]
  rfl

theorem moduleReport_snd_withLookup (env : StatusEnv)
    (lookup : CatalogRef → Option WareID × GoError) (cwd : String) (module : Option Module)
    (plot : Option Plot)
    (hl : ∀ ref, (env.OpenWorkspaceSet.1.GetCatalogWare ref).2 = .nil)
    (hl2 : ∀ ref, (lookup ref).2 = .nil) :
    (moduleReport (env.withLookup lookup) cwd module plot).2 =
      (moduleReport env cwd module plot).2 := by
  cases plot with
  | none =>
    simp only [moduleReport, workspaceReport_withLookup]
  | some plot =>
    have hp := plotReport_snd_withLookup env lookup plot hl hl2
    simp only [moduleReport, workspaceReport_withLookup]
    rw [hp]
    split_ifs <;> rfl

theorem cmdStatusFromModule_snd_withLookup (env : StatusEnv)
    (lookup : CatalogRef → Option WareID × GoError) (cwd : String)
    (hl : ∀ ref, (env.OpenWorkspaceSet.1.GetCatalogWare ref).2 = .nil)
    (hl2 : ∀ ref, (lookup ref).2 = .nil) :
    (cmdStatusFromModule (env.withLookup lookup) cwd).2 = (cmdStatusFromModule env cwd).2 := by
  have hm := fun module plot => moduleReport_snd_withLookup env lookup cwd module plot hl hl2
  unfold cmdStatusFromModule
  simp only [StatusEnv.withLookup] at hm ⊢
  split_ifs <;> first | rfl | exact hm _ _

theorem cmdStatus_snd_withLookup (env : StatusEnv)
    (lookup : CatalogRef → Option WareID × GoError)
    (hl : ∀ ref, (env.OpenWorkspaceSet.1.GetCatalogWare ref).2 = .nil)
    (hl2 : ∀ ref, (lookup ref).2 = .nil) :
    (cmdStatus (env.withLookup lookup)).2 = (cmdStatus env).2 := by
  have hm := fun cwd => cmdStatusFromModule_snd_withLookup env lookup cwd hl hl2
  unfold cmdStatus
  simp only [StatusEnv.withLookup] at hm ⊢
  split_ifs <;> first | rfl | exact hm _

theorem classifyInput_written_eq (wss : WorkspaceSet) (st : LoopState) (input : PlotInput)
    (h : (classifyInput wss st input).2 = .nil) :
    (classifyInput wss st input).1.written = st.written ++ (wss.missingLine input).toList := by
  obtain ⟨⟨m, g, c⟩⟩ := input
  cases m <;> cases g <;> cases c <;>
    simp [classifyInput, PlotInput.Basis, PlotInput.classifiedCatalogRef,
      WorkspaceSet.unresolved, WorkspaceSet.missingLine] at h ⊢
  rename_i ref
  cases hw : wss.GetCatalogWare ref with
  | mk ware err =>
    simp only [hw] at h ⊢
    by_cases he : err = .nil
    · subst he
      cases ware <;> simp
    · simp [he] at h

theorem classifyInputs_written_eq (wss : WorkspaceSet) :
    ∀ (inputs : List PlotInput) (st0 : LoopState),
      (classifyInputs wss inputs st0).2 = .nil →
      (classifyInputs wss inputs st0).1.written = st0.written ++ wss.missingLines inputs
  | [], st0, _ => by simp [classifyInputs, WorkspaceSet.missingLines]
  | input :: rest, st0, h => by
    rw [classifyInputs_cons] at h ⊢
    by_cases he : (classifyInput wss st0 input).2 = .nil
    · rw [if_neg (not_not.mpr he)] at h ⊢
      rw [classifyInputs_written_eq wss rest _ h, classifyInput_written_eq wss st0 input he]
      cases hm : wss.missingLine input <;>
        simp [WorkspaceSet.missingLines, List.filterMap_cons, hm]
    · rw [if_pos he] at h
      exact absurd h he

theorem missingLines_length (wss : WorkspaceSet) (inputs : List PlotInput) :
    (wss.missingLines inputs).length = inputs.countP wss.unresolved := by
  induction inputs with
  | nil => rfl
  | cons input rest ih =>
    have hs : wss.unresolved input = true → ∃ o, wss.missingLine input = some o := by
      intro hu
      unfold WorkspaceSet.missingLine
      rw [if_pos hu]
      unfold WorkspaceSet.unresolved at hu
      cases hc : input.classifiedCatalogRef with
      | none => rw [hc] at hu; cases hu
      | some ref => exact ⟨_, rfl⟩
    by_cases hu : wss.unresolved input = true
    · obtain ⟨o, ho⟩ := hs hu
      simp only [WorkspaceSet.missingLines] at ih ⊢
      rw [List.filterMap_cons_some ho, List.countP_cons_of_pos _ _ hu, List.length_cons, ih]
    · have hn : wss.missingLine input = none := by
        unfold WorkspaceSet.missingLine
        rw [if_neg hu]
      simp only [WorkspaceSet.missingLines] at ih ⊢
      rw [List.filterMap_cons_none hn, List.countP_cons_of_neg _ _ hu, ih]

theorem labelsOut_no_plotLine :
    ∀ (labels : List String), ∀ o ∈ labelsOut labels, o.isPlotLine = false
  | [], o, ho => by cases ho
  | [l], o, ho => by
    simp only [labelsOut, List.mem_singleton] at ho
    subst ho; rfl
  | l :: l2 :: rest, o, ho => by
    simp only [labelsOut, List.mem_cons] at ho
    rcases ho with ho | ho | ho
    · subst ho; rfl
    · subst ho; rfl
    · exact labelsOut_no_plotLine (l2 :: rest) o ho

theorem workspaceLine_no_plotLine (env : StatusEnv) (cwd : String) (ws : Workspace) :
    ∀ o ∈ workspaceLine env cwd ws, o.isPlotLine = false := by
  intro o ho
  unfold workspaceLine at ho
  simp only at ho
  by_cases h : ws.Path.1 ++ ws.Path.2 = cwd
  · rw [if_pos h] at ho
    cases ho
  · rw [if_neg h] at ho
    simp only [List.mem_append, List.mem_singleton] at ho
    rcases ho with (ho | ho) | ho
    · subst ho; rfl
    · exact labelsOut_no_plotLine _ o ho
    · subst ho; rfl

theorem workspaceLines_plotLines (env : StatusEnv) (cwd : String) (workspaces : List Workspace) :
    (workspaces.map (workspaceLine env cwd)).flatten.filter Out.isPlotLine = [] := by
  rw [List.filter_eq_nil_iff]
  intro o ho
  simp only [List.mem_flatten, List.mem_map] at ho
  obtain ⟨l, ⟨ws, _, hl⟩, hmem⟩ := ho
  subst hl
  simp [workspaceLine_no_plotLine env cwd ws o hmem]

theorem workspaceReport_plotLines (env : StatusEnv) (cwd : String) (a b : Bool) :
    (workspaceReport env cwd a b).1.filter Out.isPlotLine = [] := by
  unfold workspaceReport
  simp only
  by_cases h : env.OpenWorkspaceSetAgain.2 = .nil
  · rw [if_neg (not_not.mpr h)]
    simp only [List.filter_append, workspaceLines_plotLines]
    split_ifs <;> simp [Out.isPlotLine]
  · rw [if_pos h]
    simp [Out.isPlotLine]

theorem workspaceReport_snd (env : StatusEnv) (cwd : String) (a b : Bool) :
    (workspaceReport env cwd a b).2 =
      if env.OpenWorkspaceSetAgain.2 ≠ .nil then
        .other ("failed to open workspace set: " ++ fmtS env.OpenWorkspaceSetAgain.2)
      else .nil := by
  unfold workspaceReport
  simp only
  split_ifs <;> rfl

theorem plotReport_plotLines (env : StatusEnv) (plot : Plot) :
    (plotReport env plot).1.filter Out.isPlotLine = (plotReport env plot).1 := by
  rw [List.filter_eq_self]
  intro o ho
  have hwr := classifyInputs_written env.OpenWorkspaceSet.1 plot.inputList LoopState.init
  have hst : ∀ o ∈ (classifyInputs env.OpenWorkspaceSet.1 plot.inputList
      LoopState.init).1.written, o.isPlotLine = true := by
    intro o ho
    rcases hwr o ho with h | ⟨ref, h⟩
    · cases h
    · subst h; rfl
  have hpw : ∀ st : LoopState, ∀ o ∈ plotWarnings st, o.isPlotLine = true := by
    intro st o ho
    unfold plotWarnings at ho
    simp only [List.mem_append] at ho
    rcases ho with (ho | ho) | ho <;>
      · split_ifs at ho
        · rw [List.mem_singleton] at ho
          subst ho; rfl
        · cases ho
  unfold plotReport at ho
  simp only at ho
  split_ifs at ho
  · rw [List.mem_singleton] at ho
    subst ho; rfl
  · simp only [List.mem_append, List.mem_singleton] at ho
    rcases ho with ho | ho
    · subst ho; rfl
    · exact hst o ho
  · simp only [List.mem_append, List.mem_singleton] at ho
    rcases ho with ((ho | ho) | ho) | ho
    · subst ho; rfl
    · exact hst o ho
    · subst ho; rfl
    · exact hpw _ o ho

theorem moduleReport_plotLines (env : StatusEnv) (cwd : String) (module : Option Module)
    (plot : Plot) :
    (moduleReport env cwd module (some plot)).1.filter Out.isPlotLine = (plotReport env plot).1 := by
  have hp := plotReport_plotLines env plot
  simp only [moduleReport]
  split_ifs <;> simp [List.filter_append, workspaceReport_plotLines, hp]

theorem moduleReport_snd (env : StatusEnv) (cwd : String) (module : Option Module)
    (plot : Plot) (hp : (plotReport env plot).2 = .nil) :
    (moduleReport env cwd module (some plot)).2 =
      if env.OpenWorkspaceSetAgain.2 ≠ .nil then
        .other ("failed to open workspace set: " ++ fmtS env.OpenWorkspaceSetAgain.2)
      else .nil := by
  simp only [moduleReport, hp, workspaceReport_snd]
  split_ifs <;> first | rfl | contradiction

theorem cmdStatusFromModule_plotLines (env : StatusEnv) (cwd : String) (plot : Plot)
    (h4 : env.Stat (env.Join cwd env.MagicFilename_Module) = .nil)
    (h5 : (env.ModuleFromFile (env.Join cwd env.MagicFilename_Module)).2 = .nil)
    (h6 : (env.ModuleFromFile (env.Join cwd env.MagicFilename_Module)).1.isSome = true)
    (h7 : env.Stat (env.Join cwd env.MagicFilename_Plot) = .nil)
    (h8 : env.PlotFromFile (env.Join cwd env.MagicFilename_Plot) = (plot, .nil)) :
    (cmdStatusFromModule env cwd).1.filter Out.isPlotLine = (plotReport env plot).1 ∧
    ((plotReport env plot).2 = .nil →
      (cmdStatusFromModule env cwd).2 =
        if env.OpenWorkspaceSetAgain.2 ≠ .nil then
          .other ("failed to open workspace set: " ++ fmtS env.OpenWorkspaceSetAgain.2)
        else .nil) := by
  have hm := moduleReport_plotLines env cwd
    (env.ModuleFromFile (env.Join cwd env.MagicFilename_Module)).1 plot
  have hs := moduleReport_snd env cwd
    (env.ModuleFromFile (env.Join cwd env.MagicFilename_Module)).1 plot
  constructor
  · simp only [cmdStatusFromModule, h4, h5, h6, h7, h8, if_true, and_self, ne_eq,
      not_true_eq_false, if_false, List.filter_append, hm]
    cases (env.ModuleFromFile (env.Join cwd env.MagicFilename_Module)).1 <;>
      simp [Out.isPlotLine]
  · intro hp
    simp only [cmdStatusFromModule, h4, h5, h6, h7, h8, if_true, and_self, ne_eq,
      not_true_eq_false, if_false]
    exact hs hp

theorem cmdStatus_plotLines (env : StatusEnv) (plot : Plot) (hr : env.readsPlot plot) :
    (cmdStatus env).1.filter Out.isPlotLine = (plotReport env plot).1 ∧
    ((plotReport env plot).2 = .nil →
      (cmdStatus env).2 =
        if env.OpenWorkspaceSetAgain.2 ≠ .nil then
          .other ("failed to open workspace set: " ++ fmtS env.OpenWorkspaceSetAgain.2)
        else .nil) := by
  unfold StatusEnv.readsPlot at hr
  rcases hB : env.BinPath with ⟨binPath, e1⟩
  rcases hG : env.Getwd with ⟨cwd, e2⟩
  rw [hB, hG] at hr
  obtain ⟨h1, h2, h3, h4, h5, h6, h7, h8⟩ := hr
  simp only at h1 h2 h3 h4 h5 h6 h7 h8
  subst h1 h2
  obtain ⟨hm, hs⟩ := cmdStatusFromModule_plotLines env cwd plot h4 h5 h6 h7 h8
  rcases hR : env.RunRuncVersion (env.Join binPath "runc") with ⟨version, e3⟩
  rw [hR] at h3
  simp only at h3
  constructor
  · unfold cmdStatus
    simp only [hB, hG, hR, ne_eq, not_true_eq_false, if_false]
    by_cases hn : env.IsNotExist (env.Stat (env.Join binPath "runc")) = true
    · simp only [hn, if_true, List.filter_append, hm]
      split_ifs <;> first | exact hm | simp [Out.isPlotLine, hm]
    · have he3 : e3 = .nil := h3.resolve_left hn
      subst he3
      simp only [hn, if_false, ne_eq, not_true_eq_false, List.filter_append, hm]
      split_ifs <;> exact hm
  · intro hp
    have hs2 := hs hp
    unfold cmdStatus
    simp only [hB, hG, hR, ne_eq, not_true_eq_false, if_false]
    by_cases hn : env.IsNotExist (env.Stat (env.Join binPath "runc")) = true
    · simp only [hn, if_true]
      exact hs2
    · have he3 : e3 = .nil := h3.resolve_left hn
      subst he3
      simp only [hn, if_false, ne_eq, not_true_eq_false]
      exact hs2

theorem mem_of_mem_plotLines (l : List Out) (o : Out) (ho : o.isPlotLine = true) :
    o ∈ l ↔ o ∈ l.filter Out.isPlotLine := by
  rw [List.mem_filter]
  exact ⟨fun h => ⟨h, ho⟩, fun h => h.1⟩

theorem demoEnv_readsPlot : (demoEnv demoPlot).readsPlot demoPlot :=
  ⟨rfl, rfl, Or.inr rfl, by decide, rfl, rfl, by decide, rfl⟩

theorem mem_missingLines (wss : WorkspaceSet) (inputs : List PlotInput) (o : Out)
    (ho : o ∈ wss.missingLines inputs) : ∃ ref, o = Out.missingCatalogItem ref := by
  simp only [WorkspaceSet.missingLines, List.mem_filterMap, WorkspaceSet.missingLine] at ho
  obtain ⟨input, _, h⟩ := ho
  split_ifs at h
  simp only [Option.map_eq_some'] at h
  obtain ⟨ref, _, h⟩ := h
  exact ⟨ref, h.symm⟩

theorem unresolvedWarning_mem_plotLines (head : Out) (missing : List Out)
    (c r u i m n : Nat) (hh : head ≠ Out.unresolvedWarning n)
    (hm : Out.unresolvedWarning n ∉ missing) :
    Out.unresolvedWarning n ∈ [head] ++ missing ++ [Out.catalogInputs c r c] ++
        ((if 0 < u then [Out.unresolvedWarning u] else []) ++
          (if i > 0 then [Out.ingestWarning i] else []) ++
          (if m > 0 then [Out.mountWarning m] else [])) ↔ 0 < u ∧ n = u := by
  simp only [List.mem_append, List.mem_singleton, hm, hh.symm, reduceCtorEq, false_or, or_false]
  split_ifs <;> simp_all

theorem catalogInputs_mem_plotLines (head : Out) (missing : List Out)
    (c r u i m a b d : Nat) (hh : head ≠ Out.catalogInputs a b d)
    (hm : Out.catalogInputs a b d ∉ missing) :
    Out.catalogInputs a b d ∈ [head] ++ missing ++ [Out.catalogInputs c r c] ++
        ((if 0 < u then [Out.unresolvedWarning u] else []) ++
          (if i > 0 then [Out.ingestWarning i] else []) ++
          (if m > 0 then [Out.mountWarning m] else [])) ↔ a = c ∧ b = r ∧ d = c := by
  simp only [List.mem_append, List.mem_singleton, hm, hh.symm, reduceCtorEq, false_or, or_false]
  split_ifs <;> simp_all

/-- C7: when `cmdStatus` reads a plot, the workspace set opens and none of its
catalog lookups returns an error, the classification loop runs to its end
whatever the lookups yield; `resolvedCatalogRefCount` is at most
`catalogRefCount`, and their difference is the number of catalog inputs whose
lookup yielded no ware. Of the lines `cmdStatus` writes, those about the plot
are exactly: the plot summary, one `Missing catalog item` line per such
input, the catalog counts, the unresolved-warning with that number when it is
positive, and the two not-hermetic warnings. So the unresolved-warning is
written exactly when the number is positive, and carries it. The error
`cmdStatus` returns is nil unless the workspace set fails to open for the
workspace display, and it is the same for every other error-free lookup
function. -/
theorem unresolved_counted_not_failed (env : StatusEnv) (plot : Plot)
    (hr : env.readsPlot plot)
    (hw : env.OpenWorkspaceSet.2 = .nil)
    (hl : ∀ ref, (env.OpenWorkspaceSet.1.GetCatalogWare ref).2 = .nil) :
    ∃ st, classifyInputs env.OpenWorkspaceSet.1 plot.inputList LoopState.init = (st, .nil) ∧
      0 ≤ st.resolvedCatalogRefCount ∧
      st.resolvedCatalogRefCount ≤ st.catalogRefCount ∧
      st.catalogRefCount = plot.inputList.countP PlotInput.classifiedCatalog ∧
      st.catalogRefCount - st.resolvedCatalogRefCount =
        plot.inputList.countP env.OpenWorkspaceSet.1.unresolved ∧
      (cmdStatus env).1.filter Out.isPlotLine =
        [Out.plotHas plot.Inputs.Keys.length plot.Steps.Keys.length plot.Outputs.Keys.length] ++
        env.OpenWorkspaceSet.1.missingLines plot.inputList ++
        [Out.catalogInputs st.catalogRefCount st.resolvedCatalogRefCount st.catalogRefCount] ++
        (if 0 < plot.inputList.countP env.OpenWorkspaceSet.1.unresolved then
          [Out.unresolvedWarning (plot.inputList.countP env.OpenWorkspaceSet.1.unresolved)]
          else []) ++
        (if st.ingestCount > 0 then [Out.ingestWarning st.ingestCount] else []) ++
        (if st.mountCount > 0 then [Out.mountWarning st.mountCount] else []) ∧
      (env.OpenWorkspaceSet.1.missingLines plot.inputList).length =
        plot.inputList.countP env.OpenWorkspaceSet.1.unresolved ∧
      (∀ n, Out.unresolvedWarning n ∈ (cmdStatus env).1 ↔
        0 < plot.inputList.countP env.OpenWorkspaceSet.1.unresolved ∧
          n = plot.inputList.countP env.OpenWorkspaceSet.1.unresolved) ∧
      (∀ a b d, Out.catalogInputs a b d ∈ (cmdStatus env).1 ↔
        a = st.catalogRefCount ∧ b = st.resolvedCatalogRefCount ∧ d = st.catalogRefCount) ∧
      (cmdStatus env).2 =
        (if env.OpenWorkspaceSetAgain.2 ≠ .nil then
          .other ("failed to open workspace set: " ++ fmtS env.OpenWorkspaceSetAgain.2)
        else .nil) ∧
      (env.OpenWorkspaceSetAgain.2 = .nil → (cmdStatus env).2 = .nil) ∧
      (∀ lookup : CatalogRef → Option WareID × GoError, (∀ ref, (lookup ref).2 = .nil) →
        (cmdStatus (env.withLookup lookup)).2 = (cmdStatus env).2) := by
  have hok := classifyInputs_ok env.OpenWorkspaceSet.1 hl plot.inputList LoopState.init
  have heq := plotReport_eq env plot hw hl
  have hwe := classifyInputs_written_eq env.OpenWorkspaceSet.1 plot.inputList LoopState.init hok
  obtain ⟨hlines, herr⟩ := cmdStatus_plotLines env plot hr
  rcases hC : classifyInputs env.OpenWorkspaceSet.1 plot.inputList LoopState.init with ⟨st, e⟩
  rw [hC] at hok heq hwe
  simp only at hok heq hwe
  subst hok
  have ht := classifyInputs_tally env.OpenWorkspaceSet.1 plot.inputList LoopState.init st hC
  simp only [LoopState.init, Nat.zero_add] at ht
  simp only [LoopState.init, List.nil_append] at hwe
  have hdiff : st.catalogRefCount - st.resolvedCatalogRefCount =
      plot.inputList.countP env.OpenWorkspaceSet.1.unresolved := by omega
  have hpw : plotWarnings st =
      (if 0 < plot.inputList.countP env.OpenWorkspaceSet.1.unresolved then
        [Out.unresolvedWarning (plot.inputList.countP env.OpenWorkspaceSet.1.unresolved)]
        else []) ++
      (if st.ingestCount > 0 then [Out.ingestWarning st.ingestCount] else []) ++
      (if st.mountCount > 0 then [Out.mountWarning st.mountCount] else []) := by
    have hiff : st.resolvedCatalogRefCount < st.catalogRefCount ↔
        0 < plot.inputList.countP env.OpenWorkspaceSet.1.unresolved := by omega
    unfold plotWarnings
    rw [hdiff]
    simp only [hiff]
  have hfilter : (cmdStatus env).1.filter Out.isPlotLine =
      [Out.plotHas plot.Inputs.Keys.length plot.Steps.Keys.length plot.Outputs.Keys.length] ++
      env.OpenWorkspaceSet.1.missingLines plot.inputList ++
      [Out.catalogInputs st.catalogRefCount st.resolvedCatalogRefCount st.catalogRefCount] ++
      ((if 0 < plot.inputList.countP env.OpenWorkspaceSet.1.unresolved then
        [Out.unresolvedWarning (plot.inputList.countP env.OpenWorkspaceSet.1.unresolved)]
        else []) ++
      (if st.ingestCount > 0 then [Out.ingestWarning st.ingestCount] else []) ++
      (if st.mountCount > 0 then [Out.mountWarning st.mountCount] else [])) := by
    rw [hlines, heq, hwe, hpw]
  have hnm : ∀ o, (∀ ref, o ≠ Out.missingCatalogItem ref) →
      o ∉ env.OpenWorkspaceSet.1.missingLines plot.inputList := by
    intro o hne hmem
    obtain ⟨ref, h⟩ := mem_missingLines _ _ o hmem
    exact hne ref h
  have herr2 := herr (by rw [heq])
  refine ⟨st, rfl, Nat.zero_le _, by omega, ht.1, hdiff, ?_, missingLines_length _ _, ?_, ?_,
    herr2, ?_, fun lookup hl2 => cmdStatus_snd_withLookup env lookup hl hl2⟩
  · rw [hfilter]
    simp only [List.append_assoc]
  · intro n
    rw [mem_of_mem_plotLines (cmdStatus env).1 (Out.unresolvedWarning n) rfl, hfilter]
    exact unresolvedWarning_mem_plotLines _ _ _ _ _ _ _ n (by simp)
      (hnm (Out.unresolvedWarning n) (fun ref => by simp))
  · intro a b d
    rw [mem_of_mem_plotLines (cmdStatus env).1 (Out.catalogInputs a b d) rfl, hfilter]
    exact catalogInputs_mem_plotLines _ _ _ _ _ _ _ a b d (by simp)
      (hnm (Out.catalogInputs a b d) (fun ref => by simp))
  · intro h
    rw [herr2, if_neg (not_not.mpr h)]

/-- C7 at the concrete environment and plot: two catalog inputs, none of which
resolves; `cmdStatus` returns no error, writes a `Missing catalog item` line
for each and the warning for two unresolved inputs. -/
theorem unresolved_counted_not_failed_witness :
    (cmdStatus (demoEnv demoPlot)).2 = .nil ∧
    Out.unresolvedWarning 2 ∈ (cmdStatus (demoEnv demoPlot)).1 ∧
    Out.catalogInputs 2 0 2 ∈ (cmdStatus (demoEnv demoPlot)).1 ∧
    (cmdStatus (demoEnv demoPlot)).1.filter Out.isPlotLine =
      [Out.plotHas 5 1 1, Out.missingCatalogItem ⟨"m", "r", "i"⟩,
        Out.missingCatalogItem ⟨"m", "r", "j"⟩, Out.catalogInputs 2 0 2,
        Out.unresolvedWarning 2, Out.ingestWarning 1, Out.mountWarning 1] ∧
    ∃ st, classifyInputs (demoEnv demoPlot).OpenWorkspaceSet.1 demoPlot.inputList
        LoopState.init = (st, .nil) ∧
      0 ≤ st.resolvedCatalogRefCount ∧
      st.resolvedCatalogRefCount ≤ st.catalogRefCount ∧
      st.catalogRefCount = demoPlot.inputList.countP PlotInput.classifiedCatalog ∧
      st.catalogRefCount - st.resolvedCatalogRefCount =
        demoPlot.inputList.countP (demoEnv demoPlot).OpenWorkspaceSet.1.unresolved ∧
      (cmdStatus (demoEnv demoPlot)).1.filter Out.isPlotLine =
        [Out.plotHas demoPlot.Inputs.Keys.length demoPlot.Steps.Keys.length
          demoPlot.Outputs.Keys.length] ++
        (demoEnv demoPlot).OpenWorkspaceSet.1.missingLines demoPlot.inputList ++
        [Out.catalogInputs st.catalogRefCount st.resolvedCatalogRefCount st.catalogRefCount] ++
        (if 0 < demoPlot.inputList.countP (demoEnv demoPlot).OpenWorkspaceSet.1.unresolved then
          [Out.unresolvedWarning
            (demoPlot.inputList.countP (demoEnv demoPlot).OpenWorkspaceSet.1.unresolved)]
          else []) ++
        (if st.ingestCount > 0 then [Out.ingestWarning st.ingestCount] else []) ++
        (if st.mountCount > 0 then [Out.mountWarning st.mountCount] else []) ∧
      ((demoEnv demoPlot).OpenWorkspaceSet.1.missingLines demoPlot.inputList).length =
        demoPlot.inputList.countP (demoEnv demoPlot).OpenWorkspaceSet.1.unresolved ∧
      (∀ n, Out.unresolvedWarning n ∈ (cmdStatus (demoEnv demoPlot)).1 ↔
        0 < demoPlot.inputList.countP (demoEnv demoPlot).OpenWorkspaceSet.1.unresolved ∧
          n = demoPlot.inputList.countP (demoEnv demoPlot).OpenWorkspaceSet.1.unresolved) ∧
      (∀ a b d, Out.catalogInputs a b d ∈ (cmdStatus (demoEnv demoPlot)).1 ↔
        a = st.catalogRefCount ∧ b = st.resolvedCatalogRefCount ∧ d = st.catalogRefCount) ∧
      (cmdStatus (demoEnv demoPlot)).2 =
        (if (demoEnv demoPlot).OpenWorkspaceSetAgain.2 ≠ .nil then
          .other ("failed to open workspace set: " ++
            fmtS (demoEnv demoPlot).OpenWorkspaceSetAgain.2)
        else .nil) ∧
      ((demoEnv demoPlot).OpenWorkspaceSetAgain.2 = .nil →
        (cmdStatus (demoEnv demoPlot)).2 = .nil) ∧
      (∀ lookup : CatalogRef → Option WareID × GoError, (∀ ref, (lookup ref).2 = .nil) →
        (cmdStatus ((demoEnv demoPlot).withLookup lookup)).2 =
          (cmdStatus (demoEnv demoPlot)).2) :=
  ⟨by decide, by decide, by decide, by decide,
    unresolved_counted_not_failed (demoEnv demoPlot) demoPlot demoEnv_readsPlot rfl
      (fun _ => rfl)⟩

theorem length_le_sum_of_mem (details : List (GoString × GoString)) (kv : GoString × GoString)
    (h : kv ∈ details) :
    kv.1.length + kv.2.length ≤ (details.map fun kv => kv.1.length + kv.2.length).sum := by
  induction details with
  | nil => cases h
  | cons d rest ih =>
    simp only [List.map_cons, List.sum_cons]
    rcases List.mem_cons.mp h with h | h
    · subst h; omega
    · have := ih h; omega

theorem detailsHold_longName (err : GoError) : err.detailsHold (longName err.details) = false := by
  rw [Bool.eq_false_iff]
  intro h
  simp only [GoError.detailsHold, List.any_eq_true, Bool.or_eq_true, decide_eq_true_eq] at h
  obtain ⟨kv, hmem, hin⟩ := h
  have hlen := length_le_sum_of_mem err.details kv hmem
  have hn : (GoString.ofString (longName err.details)).length =
      (err.details.map fun kv => kv.1.length + kv.2.length).sum + 1 := by
    simp [longName, GoString.ofString]
  rcases hin with hin | hin
  · have := hin.length_le
    rw [hn] at this
    omega
  · have := hin.length_le
    rw [hn] at this
    omega

theorem trimLeadingSlash_longName (details : List (GoString × GoString)) :
    trimLeadingSlash (longName details) = longName details := by
  simp [trimLeadingSlash, longName, List.replicate_succ]

/-- C8, as the claim states it, fails: whatever the two error helpers do, some
file whose content fails to deserialize gives an error whose detail pairs do
not hold the file path, because the serialization error is built from the
situation and the cause alone. -/
theorem serialization_error_drops_path :
    ¬ ∃ (errorIo : String → String → GoError → GoError)
        (errorSerialization : String → GoError → GoError),
      ∀ (Unmarshal : String → MirroringConfigCapsule × GoError)
        (fsys : String → String × GoError) (filename : String),
        (fsys (trimLeadingSlash filename)).2 = .nil →
        (Unmarshal (fsys (trimLeadingSlash filename)).1).2 ≠ .nil →
        (MirroringConfigFromFile errorIo errorSerialization Unmarshal fsys filename).2.detailsHold
          (trimLeadingSlash filename) = true := by
  rintro ⟨errorIo, errorSerialization, h⟩
  have hbad := h (fun _ => (⟨none⟩, .other "invalid character")) (fun _ => ("not json", .nil))
    (longName (errorSerialization "loading a mirroring config"
      (.other "invalid character")).details) rfl (by simp)
  rw [trimLeadingSlash_longName] at hbad
  have hr : (MirroringConfigFromFile errorIo errorSerialization
      (fun _ => (⟨none⟩, .other "invalid character")) (fun _ => ("not json", .nil))
      (longName (errorSerialization "loading a mirroring config"
        (.other "invalid character")).details)).2 =
      errorSerialization "loading a mirroring config" (.other "invalid character") := by
    simp [MirroringConfigFromFile]
  rw [hr, detailsHold_longName] at hbad
  cases hbad

/-- C8, amended: given that `ErrorIo` returns an error of code
`warpforge-error-io` that keeps its path argument in a detail pair and that
`ErrorSerialization` returns an error of code `warpforge-error-serialization`:
a failed read gives the I/O error built from the file path as read (one
leading `/` removed), whose details hold that path; content that fails to
deserialize, or that holds no mirroring config, gives the serialization error
built from the situation and the cause alone; both come with the zero config;
and on success the parsed config is returned with no error. -/
theorem mirroringConfig_error_contract (errorIo : String → String → GoError → GoError)
    (errorSerialization : String → GoError → GoError)
    (Unmarshal : String → MirroringConfigCapsule × GoError)
    (fsys : String → String × GoError) (filename : String)
    (hIo : ∀ s p c, ∃ e, errorIo s p c = .structured (.ref e) ∧
      e.Code = "warpforge-error-io" ∧ ∃ k, (k, GoString.ofString p) ∈ e.Details.getD [])
    (hSer : ∀ s c, ∃ e, errorSerialization s c = .structured (.ref e) ∧
      e.Code = "warpforge-error-serialization") :
    ((fsys (trimLeadingSlash filename)).2 ≠ .nil →
      (MirroringConfigFromFile errorIo errorSerialization Unmarshal fsys filename).1 =
        MirroringConfig.zero ∧
      ∃ e, (MirroringConfigFromFile errorIo errorSerialization Unmarshal fsys filename).2 =
          .structured (.ref e) ∧
        e.Code = "warpforge-error-io" ∧
        (∃ k, (k, GoString.ofString (trimLeadingSlash filename)) ∈ e.Details.getD []) ∧
        (GoError.structured (.ref e)).detailsHold (trimLeadingSlash filename) = true) ∧
    ((fsys (trimLeadingSlash filename)).2 = .nil →
      ((Unmarshal (fsys (trimLeadingSlash filename)).1).2 ≠ .nil ∨
        (Unmarshal (fsys (trimLeadingSlash filename)).1).1.MirroringConfig = none) →
      (MirroringConfigFromFile errorIo errorSerialization Unmarshal fsys filename).1 =
        MirroringConfig.zero ∧
      (MirroringConfigFromFile errorIo errorSerialization Unmarshal fsys filename).2 =
        errorSerialization "loading a mirroring config"
          (Unmarshal (fsys (trimLeadingSlash filename)).1).2 ∧
      ∃ e, (MirroringConfigFromFile errorIo errorSerialization Unmarshal fsys filename).2 =
          .structured (.ref e) ∧
        e.Code = "warpforge-error-serialization") ∧
    (∀ config, (fsys (trimLeadingSlash filename)).2 = .nil →
      (Unmarshal (fsys (trimLeadingSlash filename)).1).2 = .nil →
      (Unmarshal (fsys (trimLeadingSlash filename)).1).1.MirroringConfig = some config →
      MirroringConfigFromFile errorIo errorSerialization Unmarshal fsys filename =
        (config, .nil)) := by
  rcases hf : fsys (trimLeadingSlash filename) with ⟨f, err⟩
  rcases hu : Unmarshal f with ⟨capsule, err2⟩
  refine ⟨?_, ?_, ?_⟩
  · intro he
    try simp only at he
    obtain ⟨e, h1, h2, k, h3⟩ := hIo "loading a mirroring config" (trimLeadingSlash filename) err
    have hr : MirroringConfigFromFile errorIo errorSerialization Unmarshal fsys filename =
        (MirroringConfig.zero, .structured (.ref e)) := by
      simp [MirroringConfigFromFile, hf, he, h1]
    rw [hr]
    refine ⟨rfl, e, rfl, h2, ⟨k, h3⟩, ?_⟩
    simp only [GoError.detailsHold, GoError.details, List.any_eq_true, Bool.or_eq_true,
      decide_eq_true_eq]
    exact ⟨(k, GoString.ofString (trimLeadingSlash filename)), h3, Or.inr List.infix_rfl⟩
  · intro he hbad
    try simp only at he hbad
    subst he
    obtain ⟨e, h1, h2⟩ := hSer "loading a mirroring config" err2
    have hr : MirroringConfigFromFile errorIo errorSerialization Unmarshal fsys filename =
        (MirroringConfig.zero, errorSerialization "loading a mirroring config" err2) := by
      simp only [MirroringConfigFromFile, hf, hu]
      by_cases he2 : err2 = .nil
      · rcases hbad with hbad | hbad
        · exact absurd he2 hbad
        · simp [he2, hbad]
      · simp [he2]
    rw [hr]
    exact ⟨rfl, rfl, e, h1, h2⟩
  · intro config he he2 hc
    try simp only at he he2 hc
    subst he
    subst he2
    simp [MirroringConfigFromFile, hf, hu, hc]

/-- C8, amended, at a file system without the file and at one whose file does
not parse, with helpers built like the constructors of `wfapi/error.go`. -/
theorem mirroringConfig_error_contract_witness :
    (MirroringConfigFromFile ErrorIo ErrorSerialization (fun _ => (⟨none⟩, .nil))
        (fun _ => ("", .other "file does not exist")) "/ws/.warpforge/config/mirroring.json").1 =
        MirroringConfig.zero ∧
      ∃ e, (MirroringConfigFromFile ErrorIo ErrorSerialization (fun _ => (⟨none⟩, .nil))
          (fun _ => ("", .other "file does not exist"))
          "/ws/.warpforge/config/mirroring.json").2 = .structured (.ref e) ∧
        e.Code = "warpforge-error-io" ∧
        (∃ k, (k, GoString.ofString (trimLeadingSlash "/ws/.warpforge/config/mirroring.json")) ∈
          e.Details.getD []) ∧
        (GoError.structured (.ref e)).detailsHold
          (trimLeadingSlash "/ws/.warpforge/config/mirroring.json") = true :=
  (mirroringConfig_error_contract ErrorIo ErrorSerialization (fun _ => (⟨none⟩, .nil))
    (fun _ => ("", .other "file does not exist")) "/ws/.warpforge/config/mirroring.json"
    (fun s p c => ⟨_, rfl, rfl, "path", by simp [Error.Details]⟩)
    (fun s c => ⟨_, rfl, rfl⟩)).1 (by simp)

theorem mapDeepEqual_singleton (values : List (String × WareID)) (k : String) (w : WareID) :
    mapDeepEqual values [(k, w)] = true ↔ values = [(k, w)] := by
  constructor
  · intro h
    simp only [mapDeepEqual, Bool.and_eq_true, beq_iff_eq, List.length_singleton,
      List.all_eq_true] at h
    obtain ⟨hlen, hall⟩ := h
    match values, hlen, hall with
    | [(k2, w2)], _, hall =>
      have := hall (k2, w2) (List.mem_singleton.mpr rfl)
      simp only [List.lookup] at this
      by_cases hk : k2 = k
      · subst hk
        simp at this
        rw [this]
      · have hb : (k2 == k) = false := by simpa using hk
        simp [hb] at this
  · intro h
    subst h
    simp [mapDeepEqual, List.lookup]

theorem deepEqual_invariant (result : PlotResults) :
    result.deepEqual invariant = true ↔ result = invariant := by
  obtain ⟨keys, values⟩ := result
  simp only [PlotResults.deepEqual, invariant, Bool.and_eq_true, beq_iff_eq,
    mapDeepEqual_singleton, PlotResults.mk.injEq]

theorem codes_ne : CodeRunOkay ≠ CodeRunFailure := by decide

set_option maxHeartbeats 1600000 in
/-- C9: `Run` always returns an error carrying one of the two health-check
codes; the code is `warpforge-error-healthcheck-run-okay` exactly when every
setup stage and the plot execution succeed and the produced output mapping
equals the expected one (keys `["output"]`, value the expected `tar` ware);
any failed stage and any other output mapping give
`warpforge-error-healthcheck-run-fail`. -/
theorem run_outcome (env : RunEnv) (e : ExecutionInfo)
    (hJoin : ∀ dir, env.Join dir "local" ≠ "") :
    ∃ r, Run env e = some r ∧
      (r.Code = CodeRunOkay ∨ r.Code = CodeRunFailure) ∧
      (r.Code = CodeRunOkay ↔ env.stagesSucceed e ∧ env.produced e = invariant) ∧
      (env.stagesSucceed e → env.produced e ≠ invariant → r.Code = CodeRunFailure) ∧
      (¬ env.stagesSucceed e → r.Code = CodeRunFailure) := by
  have hne := codes_ne
  have hne2 : CodeRunFailure ≠ CodeRunOkay := fun h => hne h.symm
  rcases hM : env.MkdirTemp (if e.BasePath = "" then env.DefaultBasePath else e.BasePath)
    (if e.TmpDirPrefix = "" then env.DefaultRootWorkspacePrefix else e.TmpDirPrefix)
    with ⟨root, err1⟩
  have hloc := hJoin root
  rcases hF : env.FindWorkspaceStack ((env.Join root "local").drop 1) with ⟨wss, err5⟩
  rcases hU : env.UnmarshalDefaultPlot with ⟨capsule, err6⟩
  rcases hE : env.Exec wss capsule ⟨true, ⟨true⟩⟩ with ⟨result, err10⟩
  unfold Run
  simp only [RunEnv.stagesSucceed, RunEnv.produced, RunEnv.stack, RunEnv.localDir,
    RunEnv.rootDir, hM, hF, hU, hE, hloc, if_false]
  clear hM hF hU hE hJoin hloc
  by_cases hr : result = invariant
  · have hde : result.deepEqual invariant = true := (deepEqual_invariant result).mpr hr
    simp only [hde, Bool.not_true, Bool.false_eq_true, if_false]
    cases hP : capsule.Plot with
    | none =>
      dsimp only
      split_ifs <;> refine ⟨_, rfl, ?_⟩ <;> simp_all [runFailure]
    | some plot =>
      dsimp only
      split_ifs <;> refine ⟨_, rfl, ?_⟩ <;> simp_all [runFailure]
  · have hde : result.deepEqual invariant = false := by
      rw [Bool.eq_false_iff]
      exact fun h => hr ((deepEqual_invariant result).mp h)
    simp only [hde, Bool.not_false, if_true]
    cases hP : capsule.Plot with
    | none =>
      dsimp only
      split_ifs <;> refine ⟨_, rfl, ?_⟩ <;> simp_all [runFailure]
    | some plot =>
      dsimp only
      split_ifs <;> refine ⟨_, rfl, ?_⟩ <;> simp_all [runFailure]

/-- C9 at a concrete environment in which every stage succeeds and the plot
execution produces the expected mapping: `Run` reports the okay code; with the
hash of the output changed it reports the fail code. -/
theorem run_outcome_witness :
    (Run (demoRunEnv invariant) ⟨"", "", "", ""⟩).map SerumError.Code = some CodeRunOkay ∧
    (Run (demoRunEnv ⟨["output"], [("output", ⟨"tar", "other"⟩)]⟩) ⟨"", "", "", ""⟩).map
      SerumError.Code = some CodeRunFailure ∧
    ∃ r, Run (demoRunEnv invariant) ⟨"", "", "", ""⟩ = some r ∧
      (r.Code = CodeRunOkay ∨ r.Code = CodeRunFailure) ∧
      (r.Code = CodeRunOkay ↔ (demoRunEnv invariant).stagesSucceed ⟨"", "", "", ""⟩ ∧
        (demoRunEnv invariant).produced ⟨"", "", "", ""⟩ = invariant) ∧
      ((demoRunEnv invariant).stagesSucceed ⟨"", "", "", ""⟩ →
        (demoRunEnv invariant).produced ⟨"", "", "", ""⟩ ≠ invariant →
        r.Code = CodeRunFailure) ∧
      (¬ (demoRunEnv invariant).stagesSucceed ⟨"", "", "", ""⟩ → r.Code = CodeRunFailure) :=
  ⟨by decide, by decide,
    run_outcome (demoRunEnv invariant) ⟨"", "", "", ""⟩ (fun dir h => by
      have := congrArg String.length h
      simp [demoRunEnv] at this
      exact absurd this.1.2 (by decide))⟩

theorem find_markup (input : String) :
    (input ∈ MarkupList → MarkupList.find? (fun m => input == m) = some input) ∧
    (input ∉ MarkupList → MarkupList.find? (fun m => input == m) = none) := by
  constructor
  · intro h
    cases hf : MarkupList.find? (fun m => input == m) with
    | none =>
      rw [List.find?_eq_none] at hf
      exact absurd (by simp) (hf input h)
    | some m =>
      have := List.find?_some hf
      simp only [beq_iff_eq] at this
      rw [this]
  · intro h
    rw [List.find?_eq_none]
    intro m hm heq
    simp only [beq_iff_eq] at heq
    exact h (heq ▸ hm)

/-- C10: `ValidateMarkup` lowers its input and accepts exactly the four
recognized markups: it returns the lowered input with no error if and only if
the lowered input is one of `ansi`, `bash`, `none`, `pango`; otherwise it
returns `DefaultMarkup`, which is `ansi`, with an error of code
`warpforge-error-invalid` whose only detail is `markup`, the lowered input. -/
theorem validateMarkup_accepts_exactly (ToLower : String → String) (s : String) :
    ((ValidateMarkup ToLower s).2 = none ∧ (ValidateMarkup ToLower s).1 = ToLower s ↔
      ToLower s ∈ ["ansi", "bash", "none", "pango"]) ∧
    (ToLower s ∈ ["ansi", "bash", "none", "pango"] →
      ValidateMarkup ToLower s = (ToLower s, none)) ∧
    (ToLower s ∉ ["ansi", "bash", "none", "pango"] →
      (ValidateMarkup ToLower s).1 = DefaultMarkup ∧ DefaultMarkup = "ansi" ∧
      ∃ err, (ValidateMarkup ToLower s).2 = some err ∧
        err.Code = "warpforge-error-invalid" ∧
        err.Details = [("markup", ToLower s)]) := by
  have hl : MarkupList = ["ansi", "bash", "none", "pango"] := rfl
  have hf := find_markup (ToLower s)
  rw [hl] at hf
  have hin : ToLower s ∈ ["ansi", "bash", "none", "pango"] →
      ValidateMarkup ToLower s = (ToLower s, none) := by
    intro h
    simp only [ValidateMarkup, hl, hf.1 h]
  have hout : ToLower s ∉ ["ansi", "bash", "none", "pango"] →
      ValidateMarkup ToLower s = (DefaultMarkup, some
        { Code := ECodeInvalid
          Message := .template "unrecognized markup \x7b\x7bmarkup|q\x7d\x7d"
          Details := [("markup", ToLower s)]
          Cause := .nil }) := by
    intro h
    simp only [ValidateMarkup, hl, hf.2 h]
  refine ⟨⟨?_, fun h => by rw [hin h]; exact ⟨rfl, rfl⟩⟩, hin, ?_⟩
  · intro h
    by_contra hn
    rw [hout hn] at h
    exact absurd h.1 (by simp)
  · intro hn
    rw [hout hn]
    exact ⟨rfl, rfl, _, rfl, rfl, rfl⟩

/-- C10 at an upper-case spelling of a recognized markup, under ASCII lowering. -/
theorem validateMarkup_accepts_exactly_witness :
    ValidateMarkup asciiToLower "PANGO" = (asciiToLower "PANGO", none) ∧
    asciiToLower "PANGO" = "pango" ∧
    (ValidateMarkup asciiToLower "Html").1 = "ansi" ∧
    (ValidateMarkup asciiToLower "Html").2.map SerumError.Details = some [("markup", "html")] :=
  ⟨(validateMarkup_accepts_exactly asciiToLower "PANGO").2.1 (by decide), by decide,
    by decide, by decide⟩

theorem find_style (input : String) :
    (input ∈ StyleList → StyleList.find? (fun st => input == st) = some input) ∧
    (input ∉ StyleList → StyleList.find? (fun st => input == st) = none) := by
  constructor
  · intro h
    cases hf : StyleList.find? (fun st => input == st) with
    | none =>
      rw [List.find?_eq_none] at hf
      exact absurd (by simp) (hf input h)
    | some st =>
      have := List.find?_some hf
      simp only [beq_iff_eq] at this
      rw [this]
  · intro h
    rw [List.find?_eq_none]
    intro st hst heq
    simp only [beq_iff_eq] at heq
    exact h (heq ▸ hst)

/-- C11: `ValidateStyle` lowers its input and accepts exactly the three
recognized styles: it returns the lowered input with no error if and only if
the lowered input is one of `api`, `phase`, `pretty`; otherwise it returns
`DefaultStyle`, which is `pretty`, with an error of code
`warpforge-error-invalid` whose only detail is `style`, the lowered input. -/
theorem validateStyle_accepts_exactly (ToLower : String → String) (s : String) :
    ((ValidateStyle ToLower s).2 = none ∧ (ValidateStyle ToLower s).1 = ToLower s ↔
      ToLower s ∈ ["api", "phase", "pretty"]) ∧
    (ToLower s ∈ ["api", "phase", "pretty"] →
      ValidateStyle ToLower s = (ToLower s, none)) ∧
    (ToLower s ∉ ["api", "phase", "pretty"] →
      (ValidateStyle ToLower s).1 = DefaultStyle ∧ DefaultStyle = "pretty" ∧
      ∃ err, (ValidateStyle ToLower s).2 = some err ∧
        err.Code = "warpforge-error-invalid" ∧
        err.Details = [("style", ToLower s)]) := by
  have hl : StyleList = ["api", "phase", "pretty"] := rfl
  have hf := find_style (ToLower s)
  rw [hl] at hf
  have hin : ToLower s ∈ ["api", "phase", "pretty"] →
      ValidateStyle ToLower s = (ToLower s, none) := by
    intro h
    simp only [ValidateStyle, hl, hf.1 h]
  have hout : ToLower s ∉ ["api", "phase", "pretty"] →
      ValidateStyle ToLower s = (DefaultStyle, some
        { Code := ECodeInvalid
          Message := .template "unrecognized style \x7b\x7bstyle|q\x7d\x7d"
          Details := [("style", ToLower s)]
          Cause := .nil }) := by
    intro h
    simp only [ValidateStyle, hl, hf.2 h]
  refine ⟨⟨?_, fun h => by rw [hin h]; exact ⟨rfl, rfl⟩⟩, hin, ?_⟩
  · intro h
    by_contra hn
    rw [hout hn] at h
    exact absurd h.1 (by simp)
  · intro hn
    rw [hout hn]
    exact ⟨rfl, rfl, _, rfl, rfl, rfl⟩

/-- C11 at a mixed-case spelling of a recognized style and at an unrecognized
one, under ASCII lowering. -/
theorem validateStyle_accepts_exactly_witness :
    ValidateStyle asciiToLower "Phase" = (asciiToLower "Phase", none) ∧
    asciiToLower "Phase" = "phase" ∧
    (ValidateStyle asciiToLower "Fancy").1 = "pretty" ∧
    (ValidateStyle asciiToLower "Fancy").2.map SerumError.Details = some [("style", "fancy")] :=
  ⟨(validateStyle_accepts_exactly asciiToLower "Phase").2.1 (by decide), by decide,
    by decide, by decide⟩

theorem phaseOfRendering_dasMap (p : Phase) (hp : p ∈ "" :: phaseConstants) :
    phaseOfRendering (mapIndex dasMap p) = p := by
  simp only [phaseConstants, List.mem_cons, List.mem_singleton, List.not_mem_nil,
    or_false] at hp
  rcases hp with h | h | h | h | h | h | h | h | h | h | h | h <;> subst h <;> decide

theorem mapIndex_mem (m : List (String × String)) (k : String) :
    mapIndex m k = "" ∨ mapIndex m k ∈ m.map Prod.snd := by
  induction m with
  | nil => exact Or.inl rfl
  | cons kv rest ih =>
    obtain ⟨k2, v⟩ := kv
    by_cases h : k = k2
    · subst h
      right
      simp [mapIndex, List.lookup]
    · have hb : (k == k2) = false := by simpa using h
      have : mapIndex ((k2, v) :: rest) k = mapIndex rest k := by
        simp [mapIndex, List.lookup, hb]
      rw [this]
      rcases ih with ih | ih
      · exact Or.inl ih
      · exact Or.inr (List.mem_cons_of_mem _ ih)

theorem Code2Phase_mem (env : SparkEnv) (code : String) :
    Code2Phase env code ∈ phaseConstants := by
  unfold Code2Phase
  split_ifs <;> simp [phaseConstants]

theorem formatPhase_mem (env : SparkEnv) (a : ModuleStatusAnswer) (err : GoError) :
    formatPhase env a err ∈ "" :: phaseConstants := by
  unfold formatPhase
  split_ifs
  · exact List.mem_cons_of_mem _ (Code2Phase_mem env _)
  · rcases mapIndex_mem (Status2Phase env) a.Status with h | h
    · rw [h]
      exact List.mem_cons_self _ _
    · apply List.mem_cons_of_mem
      generalize mapIndex (Status2Phase env) a.Status = x at h ⊢
      simp only [Status2Phase, List.map_cons, List.map_nil, List.mem_cons, List.mem_singleton,
        List.not_mem_nil, or_false] at h
      rcases h with h | h | h | h | h | h <;> subst h <;> simp [phaseConstants]

/-- C12: `dasMap` has an entry for each of the eleven `Phase` constants and for
nothing else, and no two of the constants are rendered alike; so the pretty
style gives different strings for any two answers whose phases differ. -/
theorem dasMap_distinguishes_phases :
    phaseConstants.length = 11 ∧ phaseConstants.Nodup ∧
    dasMap.map Prod.fst = phaseConstants ∧
    (∀ p ∈ phaseConstants, ∃ rendering, dasMap.lookup p = some rendering) ∧
    (∀ p ∈ phaseConstants, ∀ q ∈ phaseConstants, p ≠ q →
      mapIndex dasMap p ≠ mapIndex dasMap q) ∧
    (∀ (env : SparkEnv) (f : formatter) (a b : ModuleStatusAnswer) (erra errb : GoError),
      f.Style = StylePretty → formatPhase env a erra ≠ formatPhase env b errb →
      f.formatStyle env a erra ≠ f.formatStyle env b errb) := by
  refine ⟨rfl, by decide, rfl, ?_, ?_, ?_⟩
  · intro p hp
    simp only [phaseConstants, List.mem_cons, List.mem_singleton, List.not_mem_nil,
      or_false] at hp
    rcases hp with h | h | h | h | h | h | h | h | h | h | h <;> subst h <;>
      exact ⟨_, rfl⟩
  · intro p hp q hq hne heq
    apply hne
    rw [← phaseOfRendering_dasMap p (List.mem_cons_of_mem _ hp),
      ← phaseOfRendering_dasMap q (List.mem_cons_of_mem _ hq), heq]
  · intro env f a b erra errb hs hne heq
    apply hne
    simp only [formatter.formatStyle, hs, if_true] at heq
    rw [← phaseOfRendering_dasMap _ (formatPhase_mem env a erra),
      ← phaseOfRendering_dasMap _ (formatPhase_mem env b errb), heq]

/-- C12 at two concrete answers, one in progress and one failed with a server
error: their phases and their pretty renderings differ. -/
theorem dasMap_distinguishes_phases_witness :
    formatter.formatStyle demoSparkEnv ⟨"none", "pretty", false⟩ ⟨"inprogress"⟩ .nil = "⟨⇋⟩" ∧
    formatter.formatStyle demoSparkEnv ⟨"none", "pretty", false⟩ ⟨""⟩
      (.structured (.ref (.mk "warpforge-spark-server" "refused" none .nil))) = "⇃!⇂" ∧
    formatter.formatStyle demoSparkEnv ⟨"none", "pretty", false⟩ ⟨"inprogress"⟩ .nil ≠
      formatter.formatStyle demoSparkEnv ⟨"none", "pretty", false⟩ ⟨""⟩
        (.structured (.ref (.mk "warpforge-spark-server" "refused" none .nil))) :=
  ⟨by decide, by decide,
    dasMap_distinguishes_phases.2.2.2.2.2 demoSparkEnv ⟨"none", "pretty", false⟩
      ⟨"inprogress"⟩ ⟨""⟩ .nil
      (.structured (.ref (.mk "warpforge-spark-server" "refused" none .nil)))
      rfl (by decide)⟩

theorem labelsOut_no_hermetic :
    ∀ (labels : List String), ∀ o ∈ labelsOut labels, o.isHermeticWarning = false
  | [], o, ho => by cases ho
  | [l], o, ho => by
    simp only [labelsOut, List.mem_singleton] at ho
    subst ho; rfl
  | l :: l2 :: rest, o, ho => by
    simp only [labelsOut, List.mem_cons] at ho
    rcases ho with ho | ho | ho
    · subst ho; rfl
    · subst ho; rfl
    · exact labelsOut_no_hermetic (l2 :: rest) o ho

theorem workspaceLine_no_hermetic (env : StatusEnv) (cwd : String) (ws : Workspace) :
    ∀ o ∈ workspaceLine env cwd ws, o.isHermeticWarning = false := by
  intro o ho
  unfold workspaceLine at ho
  simp only at ho
  by_cases h : ws.Path.1 ++ ws.Path.2 = cwd
  · rw [if_pos h] at ho
    cases ho
  · rw [if_neg h] at ho
    simp only [List.mem_append, List.mem_singleton] at ho
    rcases ho with (ho | ho) | ho
    · subst ho; rfl
    · exact labelsOut_no_hermetic _ o ho
    · subst ho; rfl

theorem workspaceLines_filter (env : StatusEnv) (cwd : String) (workspaces : List Workspace) :
    (workspaces.map (workspaceLine env cwd)).flatten.filter Out.isHermeticWarning = [] := by
  rw [List.filter_eq_nil_iff]
  intro o ho
  simp only [List.mem_flatten, List.mem_map] at ho
  obtain ⟨l, ⟨ws, _, hl⟩, hmem⟩ := ho
  subst hl
  simp [workspaceLine_no_hermetic env cwd ws o hmem]

theorem workspaceReport_filter (env : StatusEnv) (cwd : String) (a b : Bool) :
    (workspaceReport env cwd a b).1.filter Out.isHermeticWarning = [] := by
  unfold workspaceReport
  simp only
  by_cases h : env.OpenWorkspaceSetAgain.2 = .nil
  · rw [if_neg (not_not.mpr h)]
    simp only [List.filter_append, workspaceLines_filter]
    split_ifs <;> simp [Out.isHermeticWarning]
  · rw [if_pos h]
    simp [Out.isHermeticWarning]
theorem written_filter (wss : WorkspaceSet) (inputs : List PlotInput) :
    (classifyInputs wss inputs LoopState.init).1.written.filter Out.isHermeticWarning = [] := by
  rw [List.filter_eq_nil_iff]
  intro o ho
  rcases classifyInputs_written wss inputs LoopState.init o ho with h | ⟨ref, h⟩
  · cases h
  · subst h
    simp [Out.isHermeticWarning]

theorem plotWarnings_filter (st : LoopState) :
    (plotWarnings st).filter Out.isHermeticWarning =
      (if st.ingestCount > 0 then [Out.ingestWarning st.ingestCount] else []) ++
      (if st.mountCount > 0 then [Out.mountWarning st.mountCount] else []) := by
  unfold plotWarnings
  simp only [List.filter_append]
  split_ifs <;> simp [Out.isHermeticWarning]

theorem plotReport_filter (env : StatusEnv) (plot : Plot) :
    (plotReport env plot).1.filter Out.isHermeticWarning =
      if env.OpenWorkspaceSet.2 ≠ .nil then []
      else if (classifyInputs env.OpenWorkspaceSet.1 plot.inputList LoopState.init).2 ≠ .nil
        then []
      else (plotWarnings (classifyInputs env.OpenWorkspaceSet.1 plot.inputList
        LoopState.init).1).filter Out.isHermeticWarning := by
  have hw := written_filter env.OpenWorkspaceSet.1 plot.inputList
  unfold plotReport
  simp only
  split_ifs <;> simp [List.filter_append, hw, Out.isHermeticWarning]

theorem moduleReport_filter (env : StatusEnv) (cwd : String) (module : Option Module)
    (plot : Plot) :
    (moduleReport env cwd module (some plot)).1.filter Out.isHermeticWarning =
      (plotReport env plot).1.filter Out.isHermeticWarning := by
  simp only [moduleReport]
  split_ifs <;> simp [List.filter_append, workspaceReport_filter]

theorem cmdStatusFromModule_filter (env : StatusEnv) (cwd : String) (plot : Plot)
    (h4 : env.Stat (env.Join cwd env.MagicFilename_Module) = .nil)
    (h5 : (env.ModuleFromFile (env.Join cwd env.MagicFilename_Module)).2 = .nil)
    (h6 : (env.ModuleFromFile (env.Join cwd env.MagicFilename_Module)).1.isSome = true)
    (h7 : env.Stat (env.Join cwd env.MagicFilename_Plot) = .nil)
    (h8 : env.PlotFromFile (env.Join cwd env.MagicFilename_Plot) = (plot, .nil)) :
    (cmdStatusFromModule env cwd).1.filter Out.isHermeticWarning =
      (plotReport env plot).1.filter Out.isHermeticWarning := by
  have hm := moduleReport_filter env cwd
    (env.ModuleFromFile (env.Join cwd env.MagicFilename_Module)).1 plot
  simp only [cmdStatusFromModule, h4, h5, h6, h7, h8, if_true, and_self, ne_eq,
    not_true_eq_false, if_false, List.filter_append, hm]
  cases (env.ModuleFromFile (env.Join cwd env.MagicFilename_Module)).1 <;>
    simp [Out.isHermeticWarning]

theorem cmdStatus_filter (env : StatusEnv) (plot : Plot) (hr : env.readsPlot plot) :
    (cmdStatus env).1.filter Out.isHermeticWarning =
      (plotReport env plot).1.filter Out.isHermeticWarning := by
  unfold StatusEnv.readsPlot at hr
  rcases hB : env.BinPath with ⟨binPath, e1⟩
  rcases hG : env.Getwd with ⟨cwd, e2⟩
  rw [hB, hG] at hr
  obtain ⟨h1, h2, h3, h4, h5, h6, h7, h8⟩ := hr
  simp only at h1 h2 h3 h4 h5 h6 h7 h8
  subst h1 h2
  have hm := cmdStatusFromModule_filter env cwd plot h4 h5 h6 h7 h8
  rcases hR : env.RunRuncVersion (env.Join binPath "runc") with ⟨version, e3⟩
  rw [hR] at h3
  simp only at h3
  unfold cmdStatus
  simp only [hB, hG, hR, ne_eq, not_true_eq_false, if_false]
  by_cases hn : env.IsNotExist (env.Stat (env.Join binPath "runc")) = true
  · simp only [hn, if_true, List.filter_append, hm]
    split_ifs <;> first | exact hm | simp [Out.isHermeticWarning, hm]
  · have he3 : e3 = .nil := h3.resolve_left hn
    subst he3
    simp only [hn, if_false, ne_eq, not_true_eq_false, List.filter_append, hm]
    split_ifs <;> exact hm
theorem classifyInput_err_state (wss : WorkspaceSet) (st st2 : LoopState) (input : PlotInput) :
    (classifyInput wss st input).2 = (classifyInput wss st2 input).2 := by
  obtain ⟨⟨m, g, c⟩⟩ := input
  cases m <;> cases g <;> cases c <;> simp [classifyInput, PlotInput.Basis]
  split_ifs <;> rfl

theorem classifyInputs_err_state (wss : WorkspaceSet) :
    ∀ (inputs : List PlotInput) (st st2 : LoopState),
      (classifyInputs wss inputs st).2 = (classifyInputs wss inputs st2).2
  | [], _, _ => rfl
  | input :: rest, st, st2 => by
    rw [classifyInputs_cons, classifyInputs_cons]
    have h := classifyInput_err_state wss st st2 input
    by_cases he : (classifyInput wss st input).2 = .nil
    · rw [if_neg (not_not.mpr he), if_neg (not_not.mpr (h ▸ he))]
      exact classifyInputs_err_state wss rest _ _
    · rw [if_pos he, if_pos (h ▸ he)]
      exact h

theorem classifyInput_nonHermetic (wss : WorkspaceSet) (st : LoopState) (input : PlotInput)
    (h : input.nonHermetic = true) : (classifyInput wss st input).2 = .nil := by
  obtain ⟨⟨m, g, c⟩⟩ := input
  cases m <;> cases g <;> cases c <;>
    simp [classifyInput, PlotInput.Basis, PlotInput.nonHermetic, PlotInput.classifiedMount,
      PlotInput.classifiedIngest] at h ⊢

theorem classifyInputs_err_filter (wss : WorkspaceSet) :
    ∀ (inputs : List PlotInput) (st : LoopState),
      (classifyInputs wss (inputs.filter fun input => !input.nonHermetic) st).2 =
        (classifyInputs wss inputs st).2
  | [], _ => rfl
  | input :: rest, st => by
    rw [classifyInputs_cons]
    by_cases hn : input.nonHermetic = true
    · have hf : (input :: rest).filter (fun input => !input.nonHermetic) =
          rest.filter fun input => !input.nonHermetic := by
        simp [List.filter_cons, hn]
      rw [hf, if_neg (not_not.mpr (classifyInput_nonHermetic wss st input hn)),
        classifyInputs_err_filter wss rest st]
      exact classifyInputs_err_state wss rest _ _
    · have hf : (input :: rest).filter (fun input => !input.nonHermetic) =
          input :: rest.filter fun input => !input.nonHermetic := by
        simp [List.filter_cons, hn]
      rw [hf, classifyInputs_cons]
      by_cases he : (classifyInput wss st input).2 = .nil
      · rw [if_neg (not_not.mpr he), if_neg (not_not.mpr he)]
        exact classifyInputs_err_filter wss rest _
      · rw [if_pos he, if_pos he]

theorem hermeticPart_inputList (plot : Plot) :
    plot.hermeticPart.inputList = plot.inputList.filter fun input => !input.nonHermetic := by
  simp only [Plot.hermeticPart, Plot.inputList]
  induction plot.Inputs.Values with
  | nil => rfl
  | cons kv rest ih =>
    by_cases h : kv.2.nonHermetic = true <;> simp [List.filter_cons, h, ih]

theorem plotReport_snd_hermeticPart (env : StatusEnv) (plot : Plot) :
    (plotReport env plot.hermeticPart).2 = (plotReport env plot).2 := by
  have h := classifyInputs_err_filter env.OpenWorkspaceSet.1 plot.inputList LoopState.init
  rw [← hermeticPart_inputList] at h
  unfold plotReport
  simp only
  split_ifs <;> first | rfl | exact h | simp_all

theorem plotReport_withPlot (env : StatusEnv) (f : Plot → Plot) (plot : Plot) :
    plotReport (env.withPlot f) plot = plotReport env plot := rfl

theorem workspaceReport_withPlot (env : StatusEnv) (f : Plot → Plot) (cwd : String)
    (a b : Bool) : workspaceReport (env.withPlot f) cwd a b = workspaceReport env cwd a b := rfl

theorem moduleReport_snd_hermeticPart (env : StatusEnv) (cwd : String)
    (module : Option Module) (plot : Plot) :
    (moduleReport (env.withPlot Plot.hermeticPart) cwd module (some plot.hermeticPart)).2 =
      (moduleReport env cwd module (some plot)).2 := by
  have hp := plotReport_snd_hermeticPart env plot
  simp only [moduleReport, workspaceReport_withPlot, plotReport_withPlot]
  rw [hp]
  split_ifs <;> rfl

theorem cmdStatusFromModule_snd_hermeticPart (env : StatusEnv) (cwd : String) :
    (cmdStatusFromModule (env.withPlot Plot.hermeticPart) cwd).2 =
      (cmdStatusFromModule env cwd).2 := by
  have hm := fun module plot => moduleReport_snd_hermeticPart env cwd module plot
  unfold cmdStatusFromModule
  simp only [StatusEnv.withPlot] at hm ⊢
  split_ifs <;> first | rfl | exact hm _ _

theorem cmdStatus_snd_hermeticPart (env : StatusEnv) :
    (cmdStatus (env.withPlot Plot.hermeticPart)).2 = (cmdStatus env).2 := by
  have hm := fun cwd => cmdStatusFromModule_snd_hermeticPart env cwd
  unfold cmdStatus
  simp only [StatusEnv.withPlot] at hm ⊢
  split_ifs <;> first | rfl | exact hm _
theorem hermetic_mem_cmdStatus (env : StatusEnv) (plot : Plot) (hr : env.readsPlot plot)
    (o : Out) (ho : o.isHermeticWarning = true) :
    o ∈ (cmdStatus env).1 ↔
      env.OpenWorkspaceSet.2 = .nil ∧
      (classifyInputs env.OpenWorkspaceSet.1 plot.inputList LoopState.init).2 = .nil ∧
      o ∈ (if plot.inputList.countP PlotInput.classifiedIngest > 0 then
            [Out.ingestWarning (plot.inputList.countP PlotInput.classifiedIngest)] else []) ++
          (if plot.inputList.countP PlotInput.classifiedMount > 0 then
            [Out.mountWarning (plot.inputList.countP PlotInput.classifiedMount)] else []) := by
  have hmem : o ∈ (cmdStatus env).1 ↔ o ∈ (cmdStatus env).1.filter Out.isHermeticWarning := by
    rw [List.mem_filter]
    exact ⟨fun h => ⟨h, ho⟩, fun h => h.1⟩
  rw [hmem, cmdStatus_filter env plot hr, plotReport_filter]
  by_cases hw : env.OpenWorkspaceSet.2 = .nil
  · rw [if_neg (not_not.mpr hw)]
    by_cases hl : (classifyInputs env.OpenWorkspaceSet.1 plot.inputList LoopState.init).2 = .nil
    · rw [if_neg (not_not.mpr hl), plotWarnings_filter]
      have ht := classifyInputs_tally env.OpenWorkspaceSet.1 plot.inputList LoopState.init
        (classifyInputs env.OpenWorkspaceSet.1 plot.inputList LoopState.init).1
        (Prod.ext rfl hl)
      have hm := ht.2.2.1
      have hi := ht.2.2.2
      simp only [show LoopState.init.mountCount = 0 from rfl,
        show LoopState.init.ingestCount = 0 from rfl, Nat.zero_add] at hm hi
      rw [hm, hi]
      exact ⟨fun h => ⟨hw, hl, h⟩, fun h => h.2.2⟩
    · rw [if_pos hl]
      exact ⟨fun h => absurd h (List.not_mem_nil _), fun h => absurd h.2.1 hl⟩
  · rw [if_pos hw]
    exact ⟨fun h => absurd h (List.not_mem_nil _), fun h => absurd h.1 hw⟩

theorem nonHermetic_of_count (inputs : List PlotInput) :
    (0 < inputs.countP PlotInput.classifiedMount ∨ 0 < inputs.countP PlotInput.classifiedIngest) ↔
      ∃ input ∈ inputs, input.nonHermetic = true := by
  simp only [List.countP_pos_iff, PlotInput.nonHermetic, Bool.or_eq_true]
  constructor
  · rintro (⟨i, hi, h⟩ | ⟨i, hi, h⟩)
    · exact ⟨i, hi, Or.inl h⟩
    · exact ⟨i, hi, Or.inr h⟩
  · rintro ⟨i, hi, h | h⟩
    · exact Or.inl ⟨i, hi, h⟩
    · exact Or.inr ⟨i, hi, h⟩

theorem not_nonHermetic_of_catalog (input : PlotInput) (h : input.classifiedCatalog = true) :
    input.nonHermetic = false := by
  obtain ⟨⟨m, g, c⟩⟩ := input
  cases m <;> cases g <;> cases c <;>
    simp_all [PlotInput.classifiedCatalog, PlotInput.classifiedCatalogRef, PlotInput.nonHermetic,
      PlotInput.classifiedMount, PlotInput.classifiedIngest, PlotInput.Basis]
theorem failingLookupEnv_readsPlot : failingLookupEnv.readsPlot demoPlot :=
  ⟨rfl, rfl, Or.inr rfl, by decide, rfl, rfl, by decide, rfl⟩

/-- C13, as the claim states it, fails: with a mount input, an ingest input
and a catalog input whose lookup returns an error, `cmdStatus` returns from
inside the loop and writes no not-hermetic warning. -/
theorem hermetic_warning_counterexample :
    ¬ ∀ (env : StatusEnv) (plot : Plot), env.readsPlot plot →
      ((∃ n, Out.mountWarning n ∈ (cmdStatus env).1 ∨ Out.ingestWarning n ∈ (cmdStatus env).1) ↔
        ∃ input ∈ plot.inputList, input.nonHermetic = true) := by
  intro h
  have hex : ∃ input ∈ demoPlot.inputList, input.nonHermetic = true :=
    ⟨⟨⟨some ⟨"/m"⟩, none, none⟩⟩, by decide, rfl⟩
  obtain ⟨n, hn⟩ := (h failingLookupEnv demoPlot failingLookupEnv_readsPlot).mpr hex
  have hnone : (cmdStatus failingLookupEnv).1.filter Out.isHermeticWarning = [] := by decide
  have hin : ∀ o, o.isHermeticWarning = true → o ∉ (cmdStatus failingLookupEnv).1 := by
    intro o ho hmem
    have : o ∈ (cmdStatus failingLookupEnv).1.filter Out.isHermeticWarning :=
      List.mem_filter.mpr ⟨hmem, ho⟩
    rw [hnone] at this
    cases this
  rcases hn with hn | hn
  · exact hin (Out.mountWarning n) rfl hn
  · exact hin (Out.ingestWarning n) rfl hn

/-- C13, amended: for every plot that `cmdStatus` reads, a not-hermetic
warning is written only if the plot has an input classified as mount or
ingest, so a plot whose inputs are all catalog references gets none; when the
workspace set opens and the classification loop runs to its end, the mount
warning is written exactly when `mountCount > 0` and the ingest warning exactly
when `ingestCount > 0`, each with its count, so a warning is written if and
only if there is such an input; and the error `cmdStatus` returns is the one it
returns for the plot without its mount and ingest inputs. -/
theorem hermetic_warnings_advisory (env : StatusEnv) (plot : Plot)
    (hr : env.readsPlot plot) :
    ((∃ n, Out.mountWarning n ∈ (cmdStatus env).1 ∨ Out.ingestWarning n ∈ (cmdStatus env).1) →
      ∃ input ∈ plot.inputList, input.nonHermetic = true) ∧
    ((∀ input ∈ plot.inputList, input.classifiedCatalog = true) →
      ∀ n, Out.mountWarning n ∉ (cmdStatus env).1 ∧ Out.ingestWarning n ∉ (cmdStatus env).1) ∧
    (env.OpenWorkspaceSet.2 = .nil →
      (classifyInputs env.OpenWorkspaceSet.1 plot.inputList LoopState.init).2 = .nil →
      (classifyInputs env.OpenWorkspaceSet.1 plot.inputList LoopState.init).1.mountCount =
        plot.inputList.countP PlotInput.classifiedMount ∧
      (classifyInputs env.OpenWorkspaceSet.1 plot.inputList LoopState.init).1.ingestCount =
        plot.inputList.countP PlotInput.classifiedIngest ∧
      (∀ n, Out.mountWarning n ∈ (cmdStatus env).1 ↔
        0 < plot.inputList.countP PlotInput.classifiedMount ∧
          n = plot.inputList.countP PlotInput.classifiedMount) ∧
      (∀ n, Out.ingestWarning n ∈ (cmdStatus env).1 ↔
        0 < plot.inputList.countP PlotInput.classifiedIngest ∧
          n = plot.inputList.countP PlotInput.classifiedIngest) ∧
      ((∃ n, Out.mountWarning n ∈ (cmdStatus env).1 ∨
          Out.ingestWarning n ∈ (cmdStatus env).1) ↔
        ∃ input ∈ plot.inputList, input.nonHermetic = true)) ∧
    (cmdStatus (env.withPlot Plot.hermeticPart)).2 = (cmdStatus env).2 := by
  have hM : ∀ n, Out.mountWarning n ∈ (cmdStatus env).1 ↔
      env.OpenWorkspaceSet.2 = .nil ∧
      (classifyInputs env.OpenWorkspaceSet.1 plot.inputList LoopState.init).2 = .nil ∧
      0 < plot.inputList.countP PlotInput.classifiedMount ∧
      n = plot.inputList.countP PlotInput.classifiedMount := by
    intro n
    rw [hermetic_mem_cmdStatus env plot hr (Out.mountWarning n) rfl]
    have hmem : Out.mountWarning n ∈
        (if plot.inputList.countP PlotInput.classifiedIngest > 0 then
          [Out.ingestWarning (plot.inputList.countP PlotInput.classifiedIngest)] else []) ++
        (if plot.inputList.countP PlotInput.classifiedMount > 0 then
          [Out.mountWarning (plot.inputList.countP PlotInput.classifiedMount)] else []) ↔
        0 < plot.inputList.countP PlotInput.classifiedMount ∧
          n = plot.inputList.countP PlotInput.classifiedMount := by
      split_ifs <;> simp_all
    rw [hmem]
  have hI : ∀ n, Out.ingestWarning n ∈ (cmdStatus env).1 ↔
      env.OpenWorkspaceSet.2 = .nil ∧
      (classifyInputs env.OpenWorkspaceSet.1 plot.inputList LoopState.init).2 = .nil ∧
      0 < plot.inputList.countP PlotInput.classifiedIngest ∧
      n = plot.inputList.countP PlotInput.classifiedIngest := by
    intro n
    rw [hermetic_mem_cmdStatus env plot hr (Out.ingestWarning n) rfl]
    have hmem : Out.ingestWarning n ∈
        (if plot.inputList.countP PlotInput.classifiedIngest > 0 then
          [Out.ingestWarning (plot.inputList.countP PlotInput.classifiedIngest)] else []) ++
        (if plot.inputList.countP PlotInput.classifiedMount > 0 then
          [Out.mountWarning (plot.inputList.countP PlotInput.classifiedMount)] else []) ↔
        0 < plot.inputList.countP PlotInput.classifiedIngest ∧
          n = plot.inputList.countP PlotInput.classifiedIngest := by
      split_ifs <;> simp_all
    rw [hmem]
  have hsound : (∃ n, Out.mountWarning n ∈ (cmdStatus env).1 ∨
      Out.ingestWarning n ∈ (cmdStatus env).1) →
      ∃ input ∈ plot.inputList, input.nonHermetic = true := by
    rintro ⟨n, h | h⟩
    · exact (nonHermetic_of_count plot.inputList).mp (Or.inl ((hM n).mp h).2.2.1)
    · exact (nonHermetic_of_count plot.inputList).mp (Or.inr ((hI n).mp h).2.2.1)
  refine ⟨hsound, ?_, ?_, cmdStatus_snd_hermeticPart env⟩
  · intro hall n
    have hno : ¬ ∃ input ∈ plot.inputList, input.nonHermetic = true := by
      rintro ⟨input, hin, hnh⟩
      rw [not_nonHermetic_of_catalog input (hall input hin)] at hnh
      cases hnh
    exact ⟨fun h => hno (hsound ⟨n, Or.inl h⟩), fun h => hno (hsound ⟨n, Or.inr h⟩)⟩
  · intro hw hl
    have ht := classifyInputs_tally env.OpenWorkspaceSet.1 plot.inputList LoopState.init
      (classifyInputs env.OpenWorkspaceSet.1 plot.inputList LoopState.init).1
      (Prod.ext rfl hl)
    have hm := ht.2.2.1
    have hi := ht.2.2.2
    simp only [show LoopState.init.mountCount = 0 from rfl,
      show LoopState.init.ingestCount = 0 from rfl, Nat.zero_add] at hm hi
    refine ⟨hm, hi, ?_, ?_, hsound, ?_⟩
    · intro n
      rw [hM n]
      exact ⟨fun h => h.2.2, fun h => ⟨hw, hl, h⟩⟩
    · intro n
      rw [hI n]
      exact ⟨fun h => h.2.2, fun h => ⟨hw, hl, h⟩⟩
    · intro hex
      rcases (nonHermetic_of_count plot.inputList).mpr hex with h | h
      · exact ⟨_, Or.inl ((hM _).mpr ⟨hw, hl, h, rfl⟩)⟩
      · exact ⟨_, Or.inr ((hI _).mpr ⟨hw, hl, h, rfl⟩)⟩

/-- C13, amended, at the concrete environment and plot: one mount and one
ingest input give both warnings, `cmdStatus` returns no error, and it returns
the same for the plot without those two inputs. -/
theorem hermetic_warnings_advisory_witness :
    Out.mountWarning 1 ∈ (cmdStatus (demoEnv demoPlot)).1 ∧
    Out.ingestWarning 1 ∈ (cmdStatus (demoEnv demoPlot)).1 ∧
    (cmdStatus (demoEnv demoPlot)).2 = .nil ∧
    (cmdStatus ((demoEnv demoPlot).withPlot Plot.hermeticPart)).2 =
      (cmdStatus (demoEnv demoPlot)).2 :=
  ⟨by decide, by decide, by decide,
    (hermetic_warnings_advisory (demoEnv demoPlot) demoPlot demoEnv_readsPlot).2.2.2⟩

end Warpforge
